import Mathlib

/-!
Verification of the ai-code-agency orchestration core.

This file gives a shallow embedding of the parts of the repository that the
verified properties are about:

* `src/agents/planner.py` — the `Task` / `ProjectPlan` data model,
  `create_task_breakdown` (with its fixed fallback plan) and `plan`;
* `src/agents/reviewer.py` — `evaluate`;
* `src/agents/project_manager.py` — the `ProjectStatus` record and the
  project-manager state machine (`create_project`, `execute_project` with its
  four phase methods, `package_project`, `cleanup_project`);
* `src/utils/storage.py` — `save_project` / `load_project`.

Modelling conventions:

* Python dicts become association lists with Python dict semantics
  (assignment replaces in place or appends at the end, `del` removes the key);
* Python floats become rationals;
* the nondeterministic environment (text-generation backend responses, file
  system and subprocess outcomes) is passed in explicitly: a parse outcome is
  an `Option` (`none` models an unparseable backend response) and agent-call
  outcomes are boolean-valued functions of the task id;
* exceptions become explicit error returns, mirroring the try/except
  structure of the source.
-/

namespace AICodeAgency

/-! ### Association lists with Python dict semantics -/

/-- Lookup of a key, as Python dict subscript / `get`. -/
def pyGet {α : Type} : List (String × α) → String → Option α
  | [], _ => none
  | (k2, v) :: rest, k => if k2 = k then some v else pyGet rest k

/-- Assignment `d[k] = v`: replaces the value in place when the key is
present, appends at the end otherwise (Python dicts preserve insertion
order). -/
def pySet {α : Type} : List (String × α) → String → α → List (String × α)
  | [], k, v => [(k, v)]
  | (k2, v2) :: rest, k, v =>
    if k2 = k then (k2, v) :: rest else (k2, v2) :: pySet rest k v

/-- Deletion `del d[k]` (identity when the key is absent, matching the
guarded deletes in the source). -/
def pyDel {α : Type} : List (String × α) → String → List (String × α)
  | [], _ => []
  | (k2, v2) :: rest, k => if k2 = k then rest else (k2, v2) :: pyDel rest k

/-- In-place update of the value stored under a key (identity when the key
is absent). -/
def pyModify {α : Type} : List (String × α) → String → (α → α) → List (String × α)
  | [], _, _ => []
  | (k2, v) :: rest, k, f =>
    if k2 = k then (k2, f v) :: rest else (k2, v) :: pyModify rest k f

/-! ### Character-level string helpers

`_setup_project_structure` tests whether `setup` occurs in the lowered task title.  We model
Python `str.lower` on the character list of the string (ASCII case folding)
and substring containment by structural recursion, so that the kernel can
evaluate both on concrete titles. -/

/-- ASCII lower-casing of one character, as Python `str.lower` acts on the
ASCII range. -/
def asciiLower (c : Char) : Char :=
  if 'A' ≤ c ∧ c ≤ 'Z' then Char.ofNat (c.toNat + 32) else c

/-- Whether the first list is a prefix of the second. -/
def charsStart : List Char → List Char → Bool
  | [], _ => true
  | _ :: _, [] => false
  | a :: as, b :: bs => a == b && charsStart as bs

/-- Whether the first list occurs as a contiguous sublist of the second. -/
def charsContain (pat : List Char) : List Char → Bool
  | [] => charsStart pat []
  | c :: rest => charsStart pat (c :: rest) || charsContain pat rest

/-- Python `pat in s.lower()`. -/
def lowerContains (s : String) (pat : String) : Bool :=
  charsContain pat.data (s.data.map asciiLower)

/-! ### Reviewer (`src/agents/reviewer.py`)

A report entry is modelled by its optional `returncode` value: `none` when
the dict has no `returncode` key (the `skipped` entries), `some rc`
otherwise.  All entries produced by `lint_and_test` are dicts, so the
`isinstance` guard is always true.  The membership test of the returncode
against the tuple holding 0, None and True uses Python equality, under
which `1 == True`; hence a return code of `1` is treated like `0` and
`None` and never reaches the failure branch. -/

/-- Faithful model of `ReviewerAgent.evaluate`. -/
def evaluate (report : List (String × Option Int)) : Bool × List String :=
  report.foldl
    (fun acc kv =>
      match kv.2 with
      | none => acc
      | some rc =>
        if rc = 0 ∨ rc = 1 then acc
        else if rc ≠ 0 then (false, acc.2 ++ [kv.1 ++ " failed"])
        else acc)
    (true, [])

/-- The evaluation the specification describes: approved is false iff some
non-skipped check has a non-zero return code, and the notes list the failing
checks.  Stated from the words of the spec, for comparison with the
source-derived `evaluate`. -/
def specEvaluate (report : List (String × Option Int)) : Bool × List String :=
  report.foldl
    (fun acc kv =>
      match kv.2 with
      | none => acc
      | some rc => if rc ≠ 0 then (false, acc.2 ++ [kv.1 ++ " failed"]) else acc)
    (true, [])

/-! ### Planner (`src/agents/planner.py`) -/

/-- The `Task` dataclass. -/
structure Task where
  id : Int
  title : String
  description : String
  agent : String
  priority : String
  estimated_hours : ℚ
  dependencies : List Int
  acceptance_criteria : List String
deriving Repr, DecidableEq

/-- The `ProjectPlan` dataclass.  `tech_stack` holds the value actually
stored by `plan`, namely the tech-stack recommendations of the analysis,
which is a list of strings in the fallback analysis. -/
structure ProjectPlan where
  project_name : String
  description : String
  tasks : List Task
  timeline_days : Int
  total_estimated_hours : ℚ
  architecture_decisions : List String
  tech_stack : List String
deriving Repr, DecidableEq

/-- The structured analysis produced by `analyze_requirements`. -/
structure Analysis where
  project_type : String
  complexity_level : String
  estimated_duration_days : Int
  key_features : List String
  tech_stack_recommendations : List String
  risk_factors : List String
deriving Repr, DecidableEq

/-- The fixed fallback analysis returned when the backend response is
unparseable. -/
def fallback_analysis : Analysis :=
  { project_type := "web_application"
    complexity_level := "medium"
    estimated_duration_days := 7
    key_features := ["Basic functionality"]
    tech_stack_recommendations := ["Python", "Flask", "HTML/CSS"]
    risk_factors := ["Requirements may need clarification", "LLM response parsing failed"] }

/-- `analyze_requirements`: the parse outcome of the backend response is the
parameter; `none` (unparseable) yields the fallback analysis. -/
def analyze_requirements (parsed : Option Analysis) : Analysis :=
  parsed.getD fallback_analysis

/-- One raw task object parsed from the backend response of
`create_task_breakdown` (each field may be missing; `task.get` defaults are
applied when building the `Task`). -/
structure TaskData where
  title : Option String := none
  description : Option String := none
  agent : Option String := none
  priority : Option String := none
  estimated_hours : Option ℚ := none
  dependencies : Option (List Int) := none
  acceptance_criteria : Option (List String) := none
deriving Repr, DecidableEq

/-- The `Task` built from the i-th parsed object (`id = i + 1`, `task.get`
defaults as in the source). -/
def task_of_data (i : Nat) (d : TaskData) : Task :=
  { id := (i : Int) + 1
    title := d.title.getD ("Task " ++ toString (i + 1))
    description := d.description.getD ""
    agent := d.agent.getD "coder"
    priority := d.priority.getD "medium"
    estimated_hours := d.estimated_hours.getD 2
    dependencies := d.dependencies.getD []
    acceptance_criteria := d.acceptance_criteria.getD [] }

/-- The `for i, task in enumerate(task_data)` loop of
`create_task_breakdown`. -/
def tasksFrom : Nat → List TaskData → List Task
  | _, [] => []
  | i, d :: rest => task_of_data i d :: tasksFrom (i + 1) rest

/-- The fixed fallback task breakdown (setup → implementation → testing →
documentation, 4h/16h/8h/6h). -/
def fallback_tasks : List Task :=
  [ { id := 1
      title := "Project Setup and Architecture"
      description := "Set up project structure and define architecture"
      agent := "planner"
      priority := "high"
      estimated_hours := 4
      dependencies := []
      acceptance_criteria := ["Project structure defined", "Architecture documented"] }
  , { id := 2
      title := "Core Implementation"
      description := "Implement main functionality based on requirements"
      agent := "coder"
      priority := "high"
      estimated_hours := 16
      dependencies := [1]
      acceptance_criteria := ["Core features working", "Basic tests passing"] }
  , { id := 3
      title := "Testing and Quality Assurance"
      description := "Comprehensive testing and code review"
      agent := "reviewer"
      priority := "medium"
      estimated_hours := 8
      dependencies := [2]
      acceptance_criteria := ["All tests passing", "Code quality standards met"] }
  , { id := 4
      title := "Documentation"
      description := "Create comprehensive project documentation"
      agent := "doc_agent"
      priority := "medium"
      estimated_hours := 6
      dependencies := [3]
      acceptance_criteria := ["README complete", "API docs generated", "Architecture diagrams"] } ]

/-- `create_task_breakdown`: the parse outcome of the backend response is
the parameter; `none` (unparseable, or response without brackets) yields the
fallback breakdown. -/
def create_task_breakdown (parsed : Option (List TaskData)) : List Task :=
  match parsed with
  | some ds => tasksFrom 0 ds
  | none => fallback_tasks

/-- Python `int()` applied to a rational: truncation toward zero. -/
def pyTrunc (q : ℚ) : Int :=
  if 0 ≤ q then ⌊q⌋ else ⌈q⌉

/-- The architecture-decision lines extracted from the backend response in
`plan` (stripped non-empty lines not starting with a hash, first five). -/
def arch_lines (response : String) : List String :=
  ((response.splitOn "\n").filterMap
    (fun line => if line.trim ≠ "" ∧ ¬ line.startsWith "#" then some line.trim else none)).take 5

/-- `PlannerAgent.plan`.  The two backend parse outcomes and the raw
architecture response are parameters.  The timeline is
`max(1, int(total_hours / 8))` — `int`, i.e. truncation, not ceiling. -/
def plan (title body : String) (analysisParsed : Option Analysis)
    (breakdownParsed : Option (List TaskData)) (archResponse : String) : ProjectPlan :=
  let analysis := analyze_requirements analysisParsed
  let tasks := create_task_breakdown breakdownParsed
  let total_hours : ℚ := (tasks.map Task.estimated_hours).sum
  let timeline_days : Int := max 1 (pyTrunc (total_hours / 8))
  { project_name := title
    description := body
    tasks := tasks
    timeline_days := timeline_days
    total_estimated_hours := total_hours
    architecture_decisions := arch_lines archResponse
    tech_stack := analysis.tech_stack_recommendations }

/-- The timeline the specification states: `max(1, ceil(total_hours / 8))`.
Stated from the words of the spec, for comparison with the source-derived
computation in `plan`. -/
def specTimelineDays (total_hours : ℚ) : Int :=
  max 1 ⌈total_hours / 8⌉

/-! ### Storage (`src/utils/storage.py`)

The JSON value written per project is modelled as the value itself
(`json.dump` / `json.load` are mutually inverse on JSON-representable
data); the store maps project ids to the stored top-level objects. -/

/-- JSON values (top-level project records are `obj` key/value lists with
string keys). -/
inductive Json where
  | null : Json
  | bool (b : Bool) : Json
  | num (q : ℚ) : Json
  | str (s : String) : Json
  | arr (elems : List Json) : Json
  | obj (fields : List (String × Json)) : Json
deriving Repr

/-- The `_metadata` object injected by `save_project` (timestamp parameter
models `datetime.now().isoformat()`). -/
def metaJson (ts : String) : Json :=
  Json.obj [("saved_at", Json.str ts), ("version", Json.str "1.0")]

/-- `ProjectStorage.save_project`: injects `_metadata` into the caller
provided dict (an in-place mutation, performed before the file write), then writes
the record.  `diskOk` models whether the file write raises; the mutated
argument is returned alongside the new store and the boolean result. -/
def save_project (store : List (String × List (String × Json))) (project_id : String)
    (project_data : List (String × Json)) (ts : String) (diskOk : Bool) :
    List (String × List (String × Json)) × List (String × Json) × Bool :=
  let mutated := pySet project_data "_metadata" (metaJson ts)
  if diskOk then (pySet store project_id mutated, mutated, true)
  else (store, mutated, false)

/-- `ProjectStorage.load_project`: returns `none` when the file does not
exist, otherwise the stored record with the `_metadata` key removed. -/
def load_project (store : List (String × List (String × Json))) (project_id : String) :
    Option (List (String × Json)) :=
  match pyGet store project_id with
  | none => none
  | some data => some (pyDel data "_metadata")

/-! ### Project Manager (`src/agents/project_manager.py`)

Timestamps are abstract natural-number ticks supplied by the caller.  The
GitHub mirroring calls are all wrapped in their own try/except in the
source and never touch the tracked state during phase execution; the only
state effect of the GitHub path is the error string `create_project` may
append, which is a parameter here. -/

/-- The `ProjectStatus` dataclass. -/
structure ProjectStatus where
  project_id : String
  name : String
  status : String
  progress_percentage : ℚ
  current_task : Option String
  completed_tasks : List Int
  failed_tasks : List Int
  start_time : Nat
  estimated_completion : Int
  actual_completion : Option Nat
  errors : List String
  warnings : List String
  github_repo_name : Option String := none
  github_repo_url : Option String := none
  github_clone_url : Option String := none
  github_project_board_url : Option String := none
deriving Repr, DecidableEq

/-- The mutable registries of `ProjectManagerAgent`
(`active_projects` and `project_plans`). -/
structure PMState where
  active_projects : List (String × ProjectStatus)
  project_plans : List (String × ProjectPlan)
deriving Repr

/-- Outcomes of the external calls made during `execute_project`, per task
id where relevant: whether structure generation and the initial file writes
raise, whether `_write_task_code` succeeds, the verdict of
`reviewer.evaluate`, whether `_fix_code_issues` succeeds, and whether
`doc_agent.generate_project_package` succeeds. -/
structure ExecEnv where
  setupOk : Bool
  writeOk : Int → Bool
  reviewApproved : Int → Bool
  fixOk : Int → Bool
  docOk : Int → Bool

/-- Registry lookup `active_projects.get(project_id)`. -/
def PMState.statusOf (s : PMState) (pid : String) : Option ProjectStatus :=
  pyGet s.active_projects pid

/-- Registry lookup `project_plans.get(project_id)`. -/
def PMState.planOf (s : PMState) (pid : String) : Option ProjectPlan :=
  pyGet s.project_plans pid

/-- In-place mutation of one tracked `ProjectStatus`. -/
def modifyProject (s : PMState) (pid : String) (f : ProjectStatus → ProjectStatus) : PMState :=
  { s with active_projects := pyModify s.active_projects pid f }

/-- The `status` field of the tracked project, when present. -/
def status_of (s : PMState) (pid : String) : Option String :=
  (s.statusOf pid).map ProjectStatus.status

/-- The `completed_tasks` list of the tracked project (empty when the
project is unknown). -/
def completedOf (s : PMState) (pid : String) : List Int :=
  match s.statusOf pid with
  | some st => st.completed_tasks
  | none => []

/-- `_update_status`: sets `status` and `current_task` when the project is
tracked. -/
def update_status (s : PMState) (pid : String) (status ct : String) : PMState :=
  modifyProject s pid (fun st => { st with status := status, current_task := some ct })

/-- `_update_progress`: recomputes `progress_percentage` as
`(completed / total) * 100` when the project and its plan are tracked and
the plan has tasks. -/
def update_progress (s : PMState) (pid : String) : PMState :=
  match s.statusOf pid, s.planOf pid with
  | some _, some plan =>
    if 0 < plan.tasks.length then
      modifyProject s pid (fun st =>
        { st with progress_percentage :=
            ((st.completed_tasks.length : ℚ) / (plan.tasks.length : ℚ)) * 100 })
    else s
  | _, _ => s

/-- Appends a task id to `completed_tasks`. -/
def appendCompleted (s : PMState) (pid : String) (i : Int) : PMState :=
  modifyProject s pid (fun st => { st with completed_tasks := st.completed_tasks ++ [i] })

/-- Appends an error message to `errors`. -/
def appendError (s : PMState) (pid : String) (msg : String) : PMState :=
  modifyProject s pid (fun st => { st with errors := st.errors ++ [msg] })

/-- `_can_execute_task`: all dependencies already in `completed_tasks`. -/
def can_execute_task (t : Task) (completed : List Int) : Bool :=
  t.dependencies.all (fun d => completed.contains d)

/-- `_setup_project_structure`: generates the structure (which may raise),
then marks the first task whose lowered title contains `setup` as complete
— without any dependency check — and recomputes progress. -/
def setup_project_structure (env : ExecEnv) (s : PMState) (pid : String) : PMState × Bool :=
  match s.planOf pid with
  | none => (appendError s pid "Setup failed: missing plan", false)
  | some plan =>
    if env.setupOk then
      let s1 :=
        match plan.tasks.find? (fun t => lowerContains t.title "setup") with
        | some t => appendCompleted s pid t.id
        | none => s
      (update_progress s1 pid, true)
    else (appendError s pid "Setup failed: structure generation raised", false)

/-- The `for task in coding_tasks` loop of `_implement_project`: eligible
tasks are dispatched and, on success, marked complete with a progress
update; a write failure raises, which the enclosing except turns into an
error append and a `False` return; ineligible tasks are silently
skipped. -/
def implement_loop (env : ExecEnv) (pid : String) : List Task → PMState → PMState × Bool
  | [], s => (s, true)
  | t :: rest, s =>
    if can_execute_task t (completedOf s pid) then
      let s1 := update_status s pid "in_progress" ("Implementing: " ++ t.title)
      if env.writeOk t.id then
        implement_loop env pid rest (update_progress (appendCompleted s1 pid t.id) pid)
      else
        (appendError s1 pid ("Implementation failed: Failed to write code for task: " ++ t.title),
          false)
    else implement_loop env pid rest s

/-- `_implement_project`: runs the loop over the tasks assigned to the
coder. -/
def implement_project (env : ExecEnv) (s : PMState) (pid : String) : PMState × Bool :=
  match s.planOf pid with
  | none => (appendError s pid "Implementation failed: missing plan", false)
  | some plan => implement_loop env pid (plan.tasks.filter (fun t => t.agent == "coder")) s

/-- The `for task in review_tasks` loop of `_test_and_review_project`: an
approved review (or a successful single remediation pass) marks the task
complete; a failed remediation raises. -/
def review_loop (env : ExecEnv) (pid : String) : List Task → PMState → PMState × Bool
  | [], s => (s, true)
  | t :: rest, s =>
    if can_execute_task t (completedOf s pid) then
      let s1 := update_status s pid "testing" ("Reviewing: " ++ t.title)
      if env.reviewApproved t.id then
        review_loop env pid rest (update_progress (appendCompleted s1 pid t.id) pid)
      else if env.fixOk t.id then
        review_loop env pid rest (update_progress (appendCompleted s1 pid t.id) pid)
      else (appendError s1 pid "Testing failed: Failed to fix code issues", false)
    else review_loop env pid rest s

/-- `_test_and_review_project`: runs the loop over the tasks assigned to
the reviewer. -/
def test_and_review_project (env : ExecEnv) (s : PMState) (pid : String) : PMState × Bool :=
  match s.planOf pid with
  | none => (appendError s pid "Testing failed: missing plan", false)
  | some plan => review_loop env pid (plan.tasks.filter (fun t => t.agent == "reviewer")) s

/-- The `for task in doc_tasks` loop of `_generate_documentation`. -/
def doc_loop (env : ExecEnv) (pid : String) : List Task → PMState → PMState × Bool
  | [], s => (s, true)
  | t :: rest, s =>
    if can_execute_task t (completedOf s pid) then
      let s1 := update_status s pid "documentation" ("Generating: " ++ t.title)
      if env.docOk t.id then
        doc_loop env pid rest (update_progress (appendCompleted s1 pid t.id) pid)
      else
        (appendError s1 pid ("Documentation failed: Failed to generate documentation for task: "
          ++ t.title), false)
    else doc_loop env pid rest s

/-- `_generate_documentation`: runs the loop over the tasks assigned to the
documentation agent. -/
def generate_documentation (env : ExecEnv) (s : PMState) (pid : String) : PMState × Bool :=
  match s.planOf pid with
  | none => (appendError s pid "Documentation failed: missing plan", false)
  | some plan => doc_loop env pid (plan.tasks.filter (fun t => t.agent == "doc_agent")) s

/-- The except-clause of `execute_project`: transition to `failed`, append
the error message, return `False`. -/
def execute_fail (s : PMState) (pid msg : String) : PMState × Except String Bool :=
  let m := "Project execution failed: " ++ msg
  (appendError (update_status s pid "failed" m) pid m, Except.ok false)

/-- `execute_project`: raises (`Except.error`) on an unknown project id,
otherwise drives the four phases in order, each preceded by its status
transition, finishing with the `completed` transition and
`actual_completion`; the first failing phase diverts to the except
clause. -/
def execute_project (env : ExecEnv) (s : PMState) (pid : String) (now : Nat) :
    PMState × Except String Bool :=
  match s.statusOf pid with
  | none => (s, Except.error ("Project " ++ pid ++ " not found"))
  | some _ =>
    let s1 := update_status s pid "in_progress" "Setting up project structure"
    let r1 := setup_project_structure env s1 pid
    if r1.2 then
      let s3 := update_status r1.1 pid "in_progress" "Implementing core functionality"
      let r2 := implement_project env s3 pid
      if r2.2 then
        let s5 := update_status r2.1 pid "testing" "Running tests and quality checks"
        let r3 := test_and_review_project env s5 pid
        if r3.2 then
          let s7 := update_status r3.1 pid "documentation" "Generating documentation"
          let r4 := generate_documentation env s7 pid
          if r4.2 then
            let s9 := update_status r4.1 pid "completed" "Project completed successfully"
            (modifyProject s9 pid (fun st => { st with actual_completion := some now }),
              Except.ok true)
          else execute_fail r4.1 pid "Failed to generate documentation"
        else execute_fail r3.1 pid "Failed testing and review phase"
      else execute_fail r2.1 pid "Failed to implement project"
    else execute_fail r1.1 pid "Failed to setup project structure"

/-- The fresh `ProjectStatus` that `create_project` registers: `planning`,
zero progress, empty task lists.  `githubErrors` carries the error strings
the optional GitHub path may append before the status is registered. -/
def created_status (pid title : String) (project_plan : ProjectPlan) (now : Nat)
    (githubErrors : List String) : ProjectStatus :=
  { project_id := pid
    name := title
    status := "planning"
    progress_percentage := 0
    current_task := some "Project planning completed"
    completed_tasks := []
    failed_tasks := []
    start_time := now
    estimated_completion := (now : Int) + project_plan.timeline_days
    actual_completion := none
    errors := githubErrors
    warnings := [] }

/-- `create_project`: plans the project, stores the plan, and registers the
fresh status. -/
def create_project (s : PMState) (pid title body : String)
    (analysisParsed : Option Analysis) (breakdownParsed : Option (List TaskData))
    (archResponse : String) (now : Nat) (githubErrors : List String) : PMState :=
  let project_plan := plan title body analysisParsed breakdownParsed archResponse
  let s1 := { s with project_plans := pySet s.project_plans pid project_plan }
  { s1 with
    active_projects :=
      pySet s1.active_projects pid (created_status pid title project_plan now githubErrors) }

/-- `package_project`: raises on an unknown id or a status other than
`completed`, otherwise archives the working tree (`zipOk` models whether
the archive write raises).  The artifact list tracks the archives created;
the tracked state is never mutated. -/
def package_project (zipOk : Bool) (s : PMState) (artifacts : List String)
    (pid : String) (output_path : Option String) :
    PMState × List String × Except String String :=
  match s.statusOf pid with
  | none => (s, artifacts, Except.error ("Project " ++ pid ++ " not found"))
  | some st =>
    if st.status ≠ "completed" then
      (s, artifacts, Except.error ("Project " ++ pid ++ " is not completed"))
    else
      let out := output_path.getD (pid ++ "_package.zip")
      if zipOk then (s, artifacts ++ [out], Except.ok out)
      else (s, artifacts, Except.error "Failed to package project")

/-- `cleanup_project`: removes the project from both registries. -/
def cleanup_project (s : PMState) (pid : String) : PMState × Bool :=
  ({ active_projects := pyDel s.active_projects pid,
     project_plans := pyDel s.project_plans pid }, true)

/-! ### Operation sequences

`get_project_status`, `list_projects` and the GitHub queries only read the
registries in the source, so they are identity steps here. -/

/-- One public `ProjectManagerAgent` operation. -/
inductive Op where
  | create (pid title body : String) (ap : Option Analysis) (bp : Option (List TaskData))
      (arch : String) (now : Nat) (ghErrors : List String) : Op
  | execute (pid : String) (env : ExecEnv) (now : Nat) : Op
  | package (pid : String) (outPath : Option String) (zipOk : Bool) : Op
  | cleanup (pid : String) : Op
  | getStatus (pid : String) : Op
  | listProjects : Op

/-- The state transition of one operation. -/
def step (s : PMState) : Op → PMState
  | Op.create pid title body ap bp arch now gh =>
    create_project s pid title body ap bp arch now gh
  | Op.execute pid env now => (execute_project env s pid now).1
  | Op.package pid out zipOk => (package_project zipOk s [] pid out).1
  | Op.cleanup pid => (cleanup_project s pid).1
  | Op.getStatus _ => s
  | Op.listProjects => s

/-- The empty registry a fresh `ProjectManagerAgent` starts from. -/
def initState : PMState := { active_projects := [], project_plans := [] }

/-- The state after a sequence of public operations. -/
def run (ops : List Op) : PMState := ops.foldl step initState

/-! ### Derived notions used in the verified properties -/

/-- The tasks of the tracked plan (empty when the project has no plan). -/
def planTasks (s : PMState) (pid : String) : List Task :=
  match s.planOf pid with
  | some p => p.tasks
  | none => []

/-- Whether an `Except` result is a success. -/
def exceptOk {ε α : Type} : Except ε α → Bool
  | Except.ok _ => true
  | Except.error _ => false

/-- A dependency-gated extension of a `completed_tasks` list: ids are
appended one at a time, each belonging to a task of the plan whose
dependencies are all present at the moment it is appended. -/
inductive GatedExt (tasks : List Task) : List Int → List Int → Prop
  | refl (c : List Int) : GatedExt tasks c c
  | snoc {c c' : List Int} (t : Task) (ht : t ∈ tasks)
      (hdep : ∀ d ∈ t.dependencies, d ∈ c')
      (h : GatedExt tasks c c') : GatedExt tasks c (c' ++ [t.id])

/-- The completed-task list of the second state extends the one of the
first by a dependency-gated extension over the plan of the first state, and the
plan registry is unchanged. -/
def GatedFrom (s : PMState) (pid : String) (s' : PMState) : Prop :=
  GatedExt (planTasks s pid) (completedOf s pid) (completedOf s' pid)
    ∧ s'.project_plans = s.project_plans

/-- Consistency of the pair `progress_percentage` / `completed_tasks` the
registries expose for one project id: the percentage is
`100 * len(completed_tasks) / len(plan.tasks)`, and `0` when the plan has
no tasks. -/
def progressConsistent (s : PMState) (pid : String) : Prop :=
  ∀ st p, s.statusOf pid = some st → s.planOf pid = some p →
    (p.tasks.length = 0 → st.progress_percentage = 0)
    ∧ (0 < p.tasks.length →
        st.progress_percentage =
          100 * (st.completed_tasks.length : ℚ) / (p.tasks.length : ℚ))

/-- Key lists of both registries are duplicate-free (true of every state a
`ProjectManagerAgent` can reach, since Python dicts have unique keys). -/
def wfKeys (s : PMState) : Prop :=
  (s.active_projects.map Prod.fst).Nodup ∧ (s.project_plans.map Prod.fst).Nodup

/-- The mutations `execute_project` performs on the registry entry of one
project: status/current-task updates, completed-task appends, error
appends, progress recomputations, and the final completion timestamp.
Entries of other projects and the plan registry are never touched. -/
inductive Mut (pid : String) : PMState → PMState → Prop
  | refl (s) : Mut pid s s
  | upd_status (s s' : PMState) (a b : String) :
      Mut pid s s' → Mut pid s (update_status s' pid a b)
  | add_completed (s s' : PMState) (i : Int) :
      Mut pid s s' → Mut pid s (appendCompleted s' pid i)
  | add_error (s s' : PMState) (m : String) :
      Mut pid s s' → Mut pid s (appendError s' pid m)
  | progress (s s' : PMState) :
      Mut pid s s' → Mut pid s (update_progress s' pid)
  | complete_time (s s' : PMState) (n : Nat) :
      Mut pid s s' →
      Mut pid s (modifyProject s' pid (fun st => { st with actual_completion := some n }))

/-! ### Concrete data for the scenario theorems -/

/-- Environment in which every external call succeeds. -/
def envAll : ExecEnv :=
  { setupOk := true
    writeOk := fun _ => true
    reviewApproved := fun _ => true
    fixOk := fun _ => true
    docOk := fun _ => true }

/-- Environment in which structure generation raises. -/
def envSetupFail : ExecEnv := { envAll with setupOk := false }

/-- A parsed breakdown of two tasks: a setup-titled task depending on task
2, and a coder task (task 2) with no dependencies. -/
def c1TaskData : List TaskData :=
  [ { title := some "Setup everything", agent := some "planner", dependencies := some [2] }
  , { title := some "Core work", agent := some "coder", dependencies := some [] } ]

/-- Environment in which every code write fails, so task 2 is never marked
complete. -/
def envNoWrite : ExecEnv := { envAll with writeOk := fun _ => false }

/-- Create a project from that breakdown and execute it. -/
def c1ops : List Op :=
  [Op.create "q" "Demo" "Reqs" none (some c1TaskData) "" 0 [], Op.execute "q" envNoWrite 1]

/-- Create a project from the fallback plan and execute it to completion. -/
def c2ops1 : List Op :=
  [Op.create "p" "Demo" "Reqs" none none "" 0 [], Op.execute "p" envAll 1]

/-- Execute the completed project a second time, with the setup phase
failing. -/
def c2ops2 : List Op := c2ops1 ++ [Op.execute "p" envSetupFail 2]

/-! ## Lemmas on the association-list primitives -/

theorem pyGet_pySet_self {α : Type} :
    ∀ (l : List (String × α)) (k : String) (v : α), pyGet (pySet l k v) k = some v
  | [], k, v => by simp [pySet, pyGet]
  | (k2, v2) :: rest, k, v => by
    by_cases h : k2 = k
    · simp [pySet, pyGet, h]
    · simp [pySet, pyGet, h, pyGet_pySet_self rest k v]

theorem pyGet_pySet_ne {α : Type} :
    ∀ (l : List (String × α)) (k k' : String) (v : α), k' ≠ k →
      pyGet (pySet l k v) k' = pyGet l k'
  | [], k, k', v, h => by
    simp [pySet, pyGet, Ne.symm h]
  | (k2, v2) :: rest, k, k', v, h => by
    by_cases h2 : k2 = k
    · have hne : ¬ (k2 = k') := fun hh => h (hh ▸ h2)
      rw [pySet, if_pos h2, pyGet, if_neg hne, pyGet, if_neg hne]
    · rw [pySet, if_neg h2, pyGet, pyGet]
      by_cases h3 : k2 = k'
      · rw [if_pos h3, if_pos h3]
      · rw [if_neg h3, if_neg h3, pyGet_pySet_ne rest k k' v h]

theorem pyDel_pySet_self {α : Type} :
    ∀ (l : List (String × α)) (k : String) (v : α), pyDel (pySet l k v) k = pyDel l k
  | [], k, v => by simp [pySet, pyDel]
  | (k2, v2) :: rest, k, v => by
    by_cases h : k2 = k
    · simp [pySet, pyDel, h]
    · simp [pySet, pyDel, h, pyDel_pySet_self rest k v]

theorem pyGet_pyDel_ne {α : Type} :
    ∀ (l : List (String × α)) (k k' : String), k' ≠ k →
      pyGet (pyDel l k) k' = pyGet l k'
  | [], _, _, _ => rfl
  | (k2, v2) :: rest, k, k', h => by
    by_cases h2 : k2 = k
    · have hne : ¬ (k2 = k') := fun hh => h (hh ▸ h2)
      rw [pyDel, if_pos h2, pyGet, if_neg hne]
    · rw [pyDel, if_neg h2, pyGet, pyGet]
      by_cases h3 : k2 = k'
      · rw [if_pos h3, if_pos h3]
      · rw [if_neg h3, if_neg h3, pyGet_pyDel_ne rest k k' h]

theorem pyDel_sublist {α : Type} :
    ∀ (l : List (String × α)) (k : String), (pyDel l k).Sublist l
  | [], _ => List.Sublist.refl _
  | (k2, v2) :: rest, k => by
    by_cases h : k2 = k
    · rw [pyDel, if_pos h]
      exact List.sublist_cons_self (k2, v2) rest
    · simpa [pyDel, h] using (pyDel_sublist rest k).cons₂ (k2, v2)

theorem pyGet_eq_none {α : Type} :
    ∀ (l : List (String × α)) (k : String), pyGet l k = none ↔ ∀ v, (k, v) ∉ l
  | [], k => by simp [pyGet]
  | (k2, v2) :: rest, k => by
    by_cases h2 : k2 = k
    · subst h2
      rw [pyGet, if_pos rfl]
      constructor
      · intro h
        exact Option.noConfusion h
      · intro h
        exact ((h v2) (List.mem_cons_self _ _)).elim
    · rw [pyGet, if_neg h2, pyGet_eq_none rest k]
      constructor
      · intro h v hv
        rcases List.mem_cons.mp hv with h3 | h3
        · exact h2 ((congrArg Prod.fst h3).symm)
        · exact h v h3
      · intro h v hv
        exact h v (List.mem_cons_of_mem _ hv)

theorem pyGet_pyDel_self_nodup {α : Type} :
    ∀ (l : List (String × α)) (k : String), (l.map Prod.fst).Nodup →
      pyGet (pyDel l k) k = none
  | [], _, _ => rfl
  | (k2, v2) :: rest, k, h => by
    obtain ⟨hnotin, hrest⟩ := List.nodup_cons.mp h
    by_cases h2 : k2 = k
    · subst h2
      rw [pyDel, if_pos rfl]
      rw [pyGet_eq_none]
      intro v hv
      exact hnotin (List.mem_map.mpr ⟨(k2, v), hv, rfl⟩)
    · rw [pyDel, if_neg h2, pyGet, if_neg h2]
      exact pyGet_pyDel_self_nodup rest k hrest

theorem keys_pyModify {α : Type} :
    ∀ (l : List (String × α)) (k : String) (f : α → α),
      (pyModify l k f).map Prod.fst = l.map Prod.fst
  | [], _, _ => rfl
  | (k2, v2) :: rest, k, f => by
    by_cases h : k2 = k
    · simp [pyModify, h]
    · simp [pyModify, h, keys_pyModify rest k f]

theorem mem_keys_pySet {α : Type} :
    ∀ (l : List (String × α)) (k : String) (v : α) (k' : String),
      k' ∈ (pySet l k v).map Prod.fst ↔ (k' ∈ l.map Prod.fst ∨ k' = k)
  | [], k, v, k' => by simp [pySet]
  | (k2, v2) :: rest, k, v, k' => by
    by_cases h2 : k2 = k
    · subst h2
      rw [pySet, if_pos rfl]
      simp only [List.map_cons, List.mem_cons]
      tauto
    · rw [pySet, if_neg h2]
      simp only [List.map_cons, List.mem_cons, mem_keys_pySet rest k v k']
      tauto

theorem keys_pySet_nodup {α : Type} :
    ∀ (l : List (String × α)) (k : String) (v : α), (l.map Prod.fst).Nodup →
      ((pySet l k v).map Prod.fst).Nodup
  | [], k, v, _ => by simp [pySet]
  | (k2, v2) :: rest, k, v, h => by
    obtain ⟨hnotin, hrest⟩ := List.nodup_cons.mp h
    by_cases h2 : k2 = k
    · subst h2
      simpa [pySet] using List.nodup_cons.mpr ⟨hnotin, hrest⟩
    · simp only [pySet, if_neg h2, List.map_cons]
      refine List.nodup_cons.mpr ⟨?_, keys_pySet_nodup rest k v hrest⟩
      intro hmem
      rcases (mem_keys_pySet rest k v k2).mp hmem with h3 | h3
      · exact hnotin h3
      · exact h2 h3

theorem pyGet_pyModify_self {α : Type} :
    ∀ (l : List (String × α)) (k : String) (f : α → α),
      pyGet (pyModify l k f) k = (pyGet l k).map f
  | [], _, _ => rfl
  | (k2, v2) :: rest, k, f => by
    by_cases h : k2 = k
    · simp [pyModify, pyGet, h]
    · simp [pyModify, pyGet, h, pyGet_pyModify_self rest k f]

theorem pyGet_pyModify_ne {α : Type} :
    ∀ (l : List (String × α)) (k k' : String) (f : α → α), k' ≠ k →
      pyGet (pyModify l k f) k' = pyGet l k'
  | [], _, _, _, _ => rfl
  | (k2, v2) :: rest, k, k', f, h => by
    by_cases h2 : k2 = k
    · have hne : ¬ (k2 = k') := fun hh => h (hh ▸ h2)
      rw [pyModify, if_pos h2, pyGet, if_neg hne, pyGet, if_neg hne]
    · rw [pyModify, if_neg h2, pyGet, pyGet]
      by_cases h3 : k2 = k'
      · rw [if_pos h3, if_pos h3]
      · rw [if_neg h3, if_neg h3, pyGet_pyModify_ne rest k k' f h]

theorem pyModify_absent {α : Type} :
    ∀ (l : List (String × α)) (k : String) (f : α → α), pyGet l k = none →
      pyModify l k f = l
  | [], _, _, _ => rfl
  | (k2, v2) :: rest, k, f, h => by
    by_cases h2 : k2 = k
    · simp [pyGet, h2] at h
    · rw [pyGet, if_neg h2] at h
      simp [pyModify, h2, pyModify_absent rest k f h]

theorem pyGet_mem {α : Type} :
    ∀ (l : List (String × α)) (k : String) (v : α), pyGet l k = some v → (k, v) ∈ l
  | [], k, v, h => by simp [pyGet] at h
  | (k2, v2) :: rest, k, v, h => by
    by_cases h2 : k2 = k
    · subst h2
      rw [pyGet, if_pos rfl] at h
      exact Option.some.inj h ▸ List.mem_cons_self _ _
    · rw [pyGet, if_neg h2] at h
      exact List.mem_cons_of_mem _ (pyGet_mem rest k v h)

theorem pyModify_forall {α : Type} (P : α → Prop) :
    ∀ (l : List (String × α)) (k : String) (f : α → α),
      (∀ kv ∈ l, P kv.2) → (∀ v, P v → P (f v)) →
      ∀ kv ∈ pyModify l k f, P kv.2
  | [], _, _, _, _ => by simp [pyModify]
  | (k2, v2) :: rest, k, f, hl, hf => by
    by_cases h2 : k2 = k
    · simp only [pyModify, if_pos h2]
      intro kv hkv
      rcases List.mem_cons.mp hkv with h | h
      · subst h
        exact hf v2 (hl (k2, v2) (List.mem_cons_self _ _))
      · exact hl kv (List.mem_cons_of_mem _ h)
    · simp only [pyModify, if_neg h2]
      intro kv hkv
      rcases List.mem_cons.mp hkv with h | h
      · subst h
        exact hl (k2, v2) (List.mem_cons_self _ _)
      · exact pyModify_forall P rest k f (fun kv2 hm => hl kv2 (List.mem_cons_of_mem _ hm)) hf kv h

theorem statusOf_modify_self (s : PMState) (pid : String) (f : ProjectStatus → ProjectStatus) :
    (modifyProject s pid f).statusOf pid = (s.statusOf pid).map f :=
  pyGet_pyModify_self _ _ _

theorem statusOf_modify_ne (s : PMState) (pid pid2 : String)
    (f : ProjectStatus → ProjectStatus) (h : pid2 ≠ pid) :
    (modifyProject s pid f).statusOf pid2 = s.statusOf pid2 :=
  pyGet_pyModify_ne _ _ _ _ h

theorem plans_modify (s : PMState) (pid : String) (f : ProjectStatus → ProjectStatus) :
    (modifyProject s pid f).project_plans = s.project_plans := rfl

theorem planOf_plans_congr (s s' : PMState) (pid : String)
    (h : s'.project_plans = s.project_plans) : s'.planOf pid = s.planOf pid := by
  unfold PMState.planOf
  rw [h]

theorem failedMap_modify (s : PMState) (pid : String) (f : ProjectStatus → ProjectStatus)
    (hf : ∀ st, (f st).failed_tasks = st.failed_tasks) (pid2 : String) :
    ((modifyProject s pid f).statusOf pid2).map ProjectStatus.failed_tasks
      = (s.statusOf pid2).map ProjectStatus.failed_tasks := by
  by_cases h : pid2 = pid
  · subst h
    rw [statusOf_modify_self]
    cases s.statusOf pid2 <;> simp [hf]
  · rw [statusOf_modify_ne _ _ _ _ h]

theorem completedOf_modify (s : PMState) (pid : String) (f : ProjectStatus → ProjectStatus)
    (hf : ∀ st, (f st).completed_tasks = st.completed_tasks) (pid2 : String) :
    completedOf (modifyProject s pid f) pid2 = completedOf s pid2 := by
  unfold completedOf
  by_cases h : pid2 = pid
  · subst h
    rw [statusOf_modify_self]
    cases s.statusOf pid2 <;> simp [hf]
  · rw [statusOf_modify_ne _ _ _ _ h]

theorem update_progress_plans (s : PMState) (pid : String) :
    (update_progress s pid).project_plans = s.project_plans := by
  unfold update_progress
  rcases s.statusOf pid with _ | st <;> rcases s.planOf pid with _ | p <;> simp
  split <;> rfl

theorem update_progress_statusOf_ne (s : PMState) (pid pid2 : String) (h : pid2 ≠ pid) :
    (update_progress s pid).statusOf pid2 = s.statusOf pid2 := by
  unfold update_progress
  rcases s.statusOf pid with _ | st <;> rcases s.planOf pid with _ | p <;> simp
  split
  · exact statusOf_modify_ne _ _ _ _ h
  · rfl

theorem update_progress_failedMap (s : PMState) (pid pid2 : String) :
    ((update_progress s pid).statusOf pid2).map ProjectStatus.failed_tasks
      = (s.statusOf pid2).map ProjectStatus.failed_tasks := by
  unfold update_progress
  rcases s.statusOf pid with _ | st <;> rcases s.planOf pid with _ | p <;> simp
  split
  · apply failedMap_modify
    intro st2
    rfl
  · rfl

theorem update_progress_completedOf (s : PMState) (pid pid2 : String) :
    completedOf (update_progress s pid) pid2 = completedOf s pid2 := by
  unfold update_progress
  rcases s.statusOf pid with _ | st <;> rcases s.planOf pid with _ | p <;> simp
  split
  · apply completedOf_modify
    intro st2
    rfl
  · rfl

theorem appendCompleted_statusOf_none (s : PMState) (pid : String) (i : Int)
    (h : s.statusOf pid = none) : appendCompleted s pid i = s := by
  unfold appendCompleted modifyProject
  rw [pyModify_absent _ _ _ h]

theorem completedOf_appendCompleted (s : PMState) (pid : String) (i : Int) (st : ProjectStatus)
    (h : s.statusOf pid = some st) :
    completedOf (appendCompleted s pid i) pid = completedOf s pid ++ [i] := by
  unfold completedOf
  rw [appendCompleted, statusOf_modify_self, h]
  rfl

theorem pySet_forall {α : Type} (P : α → Prop) :
    ∀ (l : List (String × α)) (k : String) (v : α),
      (∀ kv ∈ l, P kv.2) → P v → ∀ kv ∈ pySet l k v, P kv.2
  | [], k, v, _, hv => by simp [pySet]; exact hv
  | (k2, v2) :: rest, k, v, hl, hv => by
    by_cases h2 : k2 = k
    · simp only [pySet, if_pos h2]
      intro kv hkv
      rcases List.mem_cons.mp hkv with h | h
      · subst h; exact hv
      · exact hl kv (List.mem_cons_of_mem _ h)
    · simp only [pySet, if_neg h2]
      intro kv hkv
      rcases List.mem_cons.mp hkv with h | h
      · subst h
        exact hl (k2, v2) (List.mem_cons_self _ _)
      · exact pySet_forall P rest k v (fun kv2 hm => hl kv2 (List.mem_cons_of_mem _ hm)) hv kv h

/-! ## The mutation closure of execute_project -/

theorem mut_chain {pid : String} {s1 s2 s3 : PMState}
    (h1 : Mut pid s1 s2) (h2 : Mut pid s2 s3) : Mut pid s1 s3 := by
  induction h2 with
  | refl => exact h1
  | upd_status sm a b hm ih => exact Mut.upd_status _ sm a b ih
  | add_completed sm i hm ih => exact Mut.add_completed _ sm i ih
  | add_error sm m hm ih => exact Mut.add_error _ sm m ih
  | progress sm hm ih => exact Mut.progress _ sm ih
  | complete_time sm n hm ih => exact Mut.complete_time _ sm n ih

theorem Mut.plans_eq {pid : String} {s s' : PMState} (h : Mut pid s s') :
    s'.project_plans = s.project_plans := by
  induction h with
  | refl => rfl
  | upd_status sm a b hm ih => exact ih
  | add_completed sm i hm ih => exact ih
  | add_error sm m hm ih => exact ih
  | progress sm hm ih => exact (update_progress_plans sm pid).trans ih
  | complete_time sm n hm ih => exact ih

theorem Mut.statusOf_ne {pid : String} {s s' : PMState} (h : Mut pid s s')
    (pid2 : String) (hne : pid2 ≠ pid) : s'.statusOf pid2 = s.statusOf pid2 := by
  induction h with
  | refl => rfl
  | upd_status sm a b hm ih => exact (statusOf_modify_ne _ _ _ _ hne).trans ih
  | add_completed sm i hm ih => exact (statusOf_modify_ne _ _ _ _ hne).trans ih
  | add_error sm m hm ih => exact (statusOf_modify_ne _ _ _ _ hne).trans ih
  | progress sm hm ih => exact (update_progress_statusOf_ne sm pid pid2 hne).trans ih
  | complete_time sm n hm ih => exact (statusOf_modify_ne _ _ _ _ hne).trans ih

theorem Mut.failedMap {pid : String} {s s' : PMState} (h : Mut pid s s') (pid2 : String) :
    (s'.statusOf pid2).map ProjectStatus.failed_tasks
      = (s.statusOf pid2).map ProjectStatus.failed_tasks := by
  induction h with
  | refl => rfl
  | upd_status sm a b hm ih =>
    refine Eq.trans ?_ ih
    apply failedMap_modify
    intro st
    rfl
  | add_completed sm i hm ih =>
    refine Eq.trans ?_ ih
    apply failedMap_modify
    intro st
    rfl
  | add_error sm m hm ih =>
    refine Eq.trans ?_ ih
    apply failedMap_modify
    intro st
    rfl
  | progress sm hm ih => exact (update_progress_failedMap sm pid pid2).trans ih
  | complete_time sm n hm ih =>
    refine Eq.trans ?_ ih
    apply failedMap_modify
    intro st
    rfl

theorem implement_loop_mut (env : ExecEnv) (pid : String) :
    ∀ (ts : List Task) (s : PMState), Mut pid s (implement_loop env pid ts s).1
  | [], s => Mut.refl s
  | t :: rest, s => by
    rw [implement_loop]
    by_cases hc : can_execute_task t (completedOf s pid) = true
    · rw [if_pos hc]
      by_cases hw : env.writeOk t.id = true
      · rw [if_pos hw]
        refine mut_chain ?_ (implement_loop_mut env pid rest _)
        exact Mut.progress _ _ (Mut.add_completed _ _ _ (Mut.upd_status _ _ _ _ (Mut.refl s)))
      · rw [if_neg hw]
        exact Mut.add_error _ _ _ (Mut.upd_status _ _ _ _ (Mut.refl s))
    · rw [if_neg hc]
      exact implement_loop_mut env pid rest s

theorem review_loop_mut (env : ExecEnv) (pid : String) :
    ∀ (ts : List Task) (s : PMState), Mut pid s (review_loop env pid ts s).1
  | [], s => Mut.refl s
  | t :: rest, s => by
    rw [review_loop]
    by_cases hc : can_execute_task t (completedOf s pid) = true
    · rw [if_pos hc]
      by_cases ha : env.reviewApproved t.id = true
      · rw [if_pos ha]
        refine mut_chain ?_ (review_loop_mut env pid rest _)
        exact Mut.progress _ _ (Mut.add_completed _ _ _ (Mut.upd_status _ _ _ _ (Mut.refl s)))
      · rw [if_neg ha]
        by_cases hx : env.fixOk t.id = true
        · rw [if_pos hx]
          refine mut_chain ?_ (review_loop_mut env pid rest _)
          exact Mut.progress _ _ (Mut.add_completed _ _ _ (Mut.upd_status _ _ _ _ (Mut.refl s)))
        · rw [if_neg hx]
          exact Mut.add_error _ _ _ (Mut.upd_status _ _ _ _ (Mut.refl s))
    · rw [if_neg hc]
      exact review_loop_mut env pid rest s

theorem doc_loop_mut (env : ExecEnv) (pid : String) :
    ∀ (ts : List Task) (s : PMState), Mut pid s (doc_loop env pid ts s).1
  | [], s => Mut.refl s
  | t :: rest, s => by
    rw [doc_loop]
    by_cases hc : can_execute_task t (completedOf s pid) = true
    · rw [if_pos hc]
      by_cases hd : env.docOk t.id = true
      · rw [if_pos hd]
        refine mut_chain ?_ (doc_loop_mut env pid rest _)
        exact Mut.progress _ _ (Mut.add_completed _ _ _ (Mut.upd_status _ _ _ _ (Mut.refl s)))
      · rw [if_neg hd]
        exact Mut.add_error _ _ _ (Mut.upd_status _ _ _ _ (Mut.refl s))
    · rw [if_neg hc]
      exact doc_loop_mut env pid rest s

theorem setup_mut (env : ExecEnv) (s : PMState) (pid : String) :
    Mut pid s (setup_project_structure env s pid).1 := by
  unfold setup_project_structure
  cases hp : s.planOf pid with
  | none => exact Mut.add_error _ _ _ (Mut.refl s)
  | some p =>
    dsimp only
    by_cases hok : env.setupOk = true
    · rw [if_pos hok]
      cases hf : p.tasks.find? (fun t => lowerContains t.title "setup") with
      | none => exact Mut.progress _ _ (Mut.refl s)
      | some t => exact Mut.progress _ _ (Mut.add_completed _ _ _ (Mut.refl s))
    · rw [if_neg hok]
      exact Mut.add_error _ _ _ (Mut.refl s)

theorem implement_project_mut (env : ExecEnv) (s : PMState) (pid : String) :
    Mut pid s (implement_project env s pid).1 := by
  unfold implement_project
  cases hp : s.planOf pid with
  | none => exact Mut.add_error _ _ _ (Mut.refl s)
  | some p => exact implement_loop_mut env pid _ s

theorem test_and_review_project_mut (env : ExecEnv) (s : PMState) (pid : String) :
    Mut pid s (test_and_review_project env s pid).1 := by
  unfold test_and_review_project
  cases hp : s.planOf pid with
  | none => exact Mut.add_error _ _ _ (Mut.refl s)
  | some p => exact review_loop_mut env pid _ s

theorem generate_documentation_mut (env : ExecEnv) (s : PMState) (pid : String) :
    Mut pid s (generate_documentation env s pid).1 := by
  unfold generate_documentation
  cases hp : s.planOf pid with
  | none => exact Mut.add_error _ _ _ (Mut.refl s)
  | some p => exact doc_loop_mut env pid _ s

theorem execute_project_mut (env : ExecEnv) (s : PMState) (pid : String) (now : Nat) :
    Mut pid s (execute_project env s pid now).1 := by
  unfold execute_project
  cases hs : s.statusOf pid with
  | none => exact Mut.refl s
  | some st0 =>
    have m1 : Mut pid s (setup_project_structure env
        (update_status s pid "in_progress" "Setting up project structure") pid).1 :=
      mut_chain (Mut.upd_status _ _ _ _ (Mut.refl s)) (setup_mut env _ pid)
    by_cases h1 : (setup_project_structure env
        (update_status s pid "in_progress" "Setting up project structure") pid).2 = true
    · rw [if_pos h1]
      have m2 : Mut pid s (implement_project env
          (update_status (setup_project_structure env
            (update_status s pid "in_progress" "Setting up project structure") pid).1
            pid "in_progress" "Implementing core functionality") pid).1 :=
        mut_chain (Mut.upd_status _ _ _ _ m1) (implement_project_mut env _ pid)
      by_cases h2 : (implement_project env
          (update_status (setup_project_structure env
            (update_status s pid "in_progress" "Setting up project structure") pid).1
            pid "in_progress" "Implementing core functionality") pid).2 = true
      · rw [if_pos h2]
        have m3 : Mut pid s (test_and_review_project env
            (update_status (implement_project env
              (update_status (setup_project_structure env
                (update_status s pid "in_progress" "Setting up project structure") pid).1
                pid "in_progress" "Implementing core functionality") pid).1
              pid "testing" "Running tests and quality checks") pid).1 :=
          mut_chain (Mut.upd_status _ _ _ _ m2) (test_and_review_project_mut env _ pid)
        by_cases h3 : (test_and_review_project env
            (update_status (implement_project env
              (update_status (setup_project_structure env
                (update_status s pid "in_progress" "Setting up project structure") pid).1
                pid "in_progress" "Implementing core functionality") pid).1
              pid "testing" "Running tests and quality checks") pid).2 = true
        · rw [if_pos h3]
          have m4 : Mut pid s (generate_documentation env
              (update_status (test_and_review_project env
                (update_status (implement_project env
                  (update_status (setup_project_structure env
                    (update_status s pid "in_progress" "Setting up project structure") pid).1
                    pid "in_progress" "Implementing core functionality") pid).1
                  pid "testing" "Running tests and quality checks") pid).1
                pid "documentation" "Generating documentation") pid).1 :=
            mut_chain (Mut.upd_status _ _ _ _ m3) (generate_documentation_mut env _ pid)
          by_cases h4 : (generate_documentation env
              (update_status (test_and_review_project env
                (update_status (implement_project env
                  (update_status (setup_project_structure env
                    (update_status s pid "in_progress" "Setting up project structure") pid).1
                    pid "in_progress" "Implementing core functionality") pid).1
                  pid "testing" "Running tests and quality checks") pid).1
                pid "documentation" "Generating documentation") pid).2 = true
          · rw [if_pos h4]
            exact Mut.complete_time _ _ _ (Mut.upd_status _ _ _ _ m4)
          · rw [if_neg h4]
            exact Mut.add_error _ _ _ (Mut.upd_status _ _ _ _ m4)
        · rw [if_neg h3]
          exact Mut.add_error _ _ _ (Mut.upd_status _ _ _ _ m3)
      · rw [if_neg h2]
        exact Mut.add_error _ _ _ (Mut.upd_status _ _ _ _ m2)
    · rw [if_neg h1]
      exact Mut.add_error _ _ _ (Mut.upd_status _ _ _ _ m1)

/-! ## Dependency gating -/

theorem can_execute_iff (t : Task) (c : List Int) :
    can_execute_task t c = true ↔ ∀ d ∈ t.dependencies, d ∈ c := by
  simp [can_execute_task, List.all_eq_true, List.elem_iff]

theorem completedOf_update_status (s : PMState) (pid a b pid2 : String) :
    completedOf (update_status s pid a b) pid2 = completedOf s pid2 := by
  apply completedOf_modify
  intro st
  rfl

theorem completedOf_appendError (s : PMState) (pid m pid2 : String) :
    completedOf (appendError s pid m) pid2 = completedOf s pid2 := by
  apply completedOf_modify
  intro st
  rfl

theorem completedOf_set_completion (s : PMState) (pid : String) (n : Nat) (pid2 : String) :
    completedOf (modifyProject s pid (fun st => { st with actual_completion := some n })) pid2
      = completedOf s pid2 := by
  apply completedOf_modify
  intro st
  rfl

theorem update_status_statusOf_self (s : PMState) (pid a b : String) :
    (update_status s pid a b).statusOf pid
      = (s.statusOf pid).map (fun st => { st with status := a, current_task := some b }) :=
  statusOf_modify_self _ _ _

theorem completedOf_estep_some (s : PMState) (pid a b : String) (i : Int)
    (st : ProjectStatus) (h : s.statusOf pid = some st) :
    completedOf (update_progress (appendCompleted (update_status s pid a b) pid i) pid) pid
      = completedOf s pid ++ [i] := by
  rw [update_progress_completedOf,
    completedOf_appendCompleted (update_status s pid a b) pid i
      { st with status := a, current_task := some b }
      (by rw [update_status_statusOf_self, h]; rfl),
    completedOf_update_status]

theorem completedOf_estep_none (s : PMState) (pid a b : String) (i : Int)
    (h : s.statusOf pid = none) :
    completedOf (update_progress (appendCompleted (update_status s pid a b) pid i) pid) pid
      = completedOf s pid := by
  rw [update_progress_completedOf,
    appendCompleted_statusOf_none (update_status s pid a b) pid i
      (by rw [update_status_statusOf_self, h]; rfl),
    completedOf_update_status]

theorem gated_chain {tasks : List Task} {a b c : List Int}
    (h1 : GatedExt tasks a b) (h2 : GatedExt tasks b c) : GatedExt tasks a c := by
  induction h2 with
  | refl => exact h1
  | snoc t ht hdep h ih => exact GatedExt.snoc t ht hdep ih

theorem implement_loop_gated (env : ExecEnv) (pid : String) (allTasks : List Task) :
    ∀ (ts : List Task) (s : PMState), (∀ t ∈ ts, t ∈ allTasks) →
      GatedExt allTasks (completedOf s pid) (completedOf (implement_loop env pid ts s).1 pid)
  | [], s, _ => GatedExt.refl _
  | t :: rest, s, hsub => by
    rw [implement_loop]
    by_cases hc : can_execute_task t (completedOf s pid) = true
    · rw [if_pos hc]
      by_cases hw : env.writeOk t.id = true
      · rw [if_pos hw]
        cases hst : s.statusOf pid with
        | none =>
          have heq := completedOf_estep_none s pid "in_progress"
            ("Implementing: " ++ t.title) t.id hst
          have ih := implement_loop_gated env pid allTasks rest
            (update_progress (appendCompleted (update_status s pid "in_progress"
              ("Implementing: " ++ t.title)) pid t.id) pid)
            (fun t2 ht2 => hsub t2 (List.mem_cons_of_mem _ ht2))
          rw [heq] at ih
          exact ih
        | some st =>
          have heq := completedOf_estep_some s pid "in_progress"
            ("Implementing: " ++ t.title) t.id st hst
          have ih := implement_loop_gated env pid allTasks rest
            (update_progress (appendCompleted (update_status s pid "in_progress"
              ("Implementing: " ++ t.title)) pid t.id) pid)
            (fun t2 ht2 => hsub t2 (List.mem_cons_of_mem _ ht2))
          rw [heq] at ih
          refine gated_chain ?_ ih
          exact GatedExt.snoc t (hsub t (List.mem_cons_self _ _))
            ((can_execute_iff t _).mp hc) (GatedExt.refl _)
      · rw [if_neg hw]
        dsimp only
        rw [completedOf_appendError, completedOf_update_status]
        exact GatedExt.refl _
    · rw [if_neg hc]
      exact implement_loop_gated env pid allTasks rest s
        (fun t2 ht2 => hsub t2 (List.mem_cons_of_mem _ ht2))

theorem review_loop_gated (env : ExecEnv) (pid : String) (allTasks : List Task) :
    ∀ (ts : List Task) (s : PMState), (∀ t ∈ ts, t ∈ allTasks) →
      GatedExt allTasks (completedOf s pid) (completedOf (review_loop env pid ts s).1 pid)
  | [], s, _ => GatedExt.refl _
  | t :: rest, s, hsub => by
    rw [review_loop]
    by_cases hc : can_execute_task t (completedOf s pid) = true
    · rw [if_pos hc]
      have hrest := fun t2 ht2 => hsub t2 (List.mem_cons_of_mem _ ht2)
      have hgate :
          ∀ st, s.statusOf pid = some st →
            GatedExt allTasks (completedOf s pid)
              (completedOf (review_loop env pid rest
                (update_progress (appendCompleted (update_status s pid "testing"
                  ("Reviewing: " ++ t.title)) pid t.id) pid)).1 pid) := by
        intro st hst
        have heq := completedOf_estep_some s pid "testing"
          ("Reviewing: " ++ t.title) t.id st hst
        have ih := review_loop_gated env pid allTasks rest
          (update_progress (appendCompleted (update_status s pid "testing"
            ("Reviewing: " ++ t.title)) pid t.id) pid) hrest
        rw [heq] at ih
        refine gated_chain ?_ ih
        exact GatedExt.snoc t (hsub t (List.mem_cons_self _ _))
          ((can_execute_iff t _).mp hc) (GatedExt.refl _)
      have hgate0 :
          s.statusOf pid = none →
            GatedExt allTasks (completedOf s pid)
              (completedOf (review_loop env pid rest
                (update_progress (appendCompleted (update_status s pid "testing"
                  ("Reviewing: " ++ t.title)) pid t.id) pid)).1 pid) := by
        intro hst
        have heq := completedOf_estep_none s pid "testing"
          ("Reviewing: " ++ t.title) t.id hst
        have ih := review_loop_gated env pid allTasks rest
          (update_progress (appendCompleted (update_status s pid "testing"
            ("Reviewing: " ++ t.title)) pid t.id) pid) hrest
        rw [heq] at ih
        exact ih
      by_cases ha : env.reviewApproved t.id = true
      · rw [if_pos ha]
        cases hst : s.statusOf pid with
        | none => exact hgate0 hst
        | some st => exact hgate st hst
      · rw [if_neg ha]
        by_cases hx : env.fixOk t.id = true
        · rw [if_pos hx]
          cases hst : s.statusOf pid with
          | none => exact hgate0 hst
          | some st => exact hgate st hst
        · rw [if_neg hx]
          dsimp only
          rw [completedOf_appendError, completedOf_update_status]
          exact GatedExt.refl _
    · rw [if_neg hc]
      exact review_loop_gated env pid allTasks rest s
        (fun t2 ht2 => hsub t2 (List.mem_cons_of_mem _ ht2))

theorem doc_loop_gated (env : ExecEnv) (pid : String) (allTasks : List Task) :
    ∀ (ts : List Task) (s : PMState), (∀ t ∈ ts, t ∈ allTasks) →
      GatedExt allTasks (completedOf s pid) (completedOf (doc_loop env pid ts s).1 pid)
  | [], s, _ => GatedExt.refl _
  | t :: rest, s, hsub => by
    rw [doc_loop]
    by_cases hc : can_execute_task t (completedOf s pid) = true
    · rw [if_pos hc]
      by_cases hd : env.docOk t.id = true
      · rw [if_pos hd]
        cases hst : s.statusOf pid with
        | none =>
          have heq := completedOf_estep_none s pid "documentation"
            ("Generating: " ++ t.title) t.id hst
          have ih := doc_loop_gated env pid allTasks rest
            (update_progress (appendCompleted (update_status s pid "documentation"
              ("Generating: " ++ t.title)) pid t.id) pid)
            (fun t2 ht2 => hsub t2 (List.mem_cons_of_mem _ ht2))
          rw [heq] at ih
          exact ih
        | some st =>
          have heq := completedOf_estep_some s pid "documentation"
            ("Generating: " ++ t.title) t.id st hst
          have ih := doc_loop_gated env pid allTasks rest
            (update_progress (appendCompleted (update_status s pid "documentation"
              ("Generating: " ++ t.title)) pid t.id) pid)
            (fun t2 ht2 => hsub t2 (List.mem_cons_of_mem _ ht2))
          rw [heq] at ih
          refine gated_chain ?_ ih
          exact GatedExt.snoc t (hsub t (List.mem_cons_self _ _))
            ((can_execute_iff t _).mp hc) (GatedExt.refl _)
      · rw [if_neg hd]
        dsimp only
        rw [completedOf_appendError, completedOf_update_status]
        exact GatedExt.refl _
    · rw [if_neg hc]
      exact doc_loop_gated env pid allTasks rest s
        (fun t2 ht2 => hsub t2 (List.mem_cons_of_mem _ ht2))

theorem setup_completed (env : ExecEnv) (s : PMState) (pid : String) :
    completedOf (setup_project_structure env s pid).1 pid = completedOf s pid
    ∨ ∃ t, (planTasks s pid).find? (fun t2 => lowerContains t2.title "setup") = some t
        ∧ completedOf (setup_project_structure env s pid).1 pid
            = completedOf s pid ++ [t.id] := by
  unfold setup_project_structure
  cases hp : s.planOf pid with
  | none =>
    left
    dsimp only
    rw [completedOf_appendError]
  | some p =>
    dsimp only
    by_cases hok : env.setupOk = true
    · rw [if_pos hok]
      cases hf : p.tasks.find? (fun t => lowerContains t.title "setup") with
      | none =>
        left
        dsimp only
        rw [update_progress_completedOf]
      | some t =>
        cases hst : s.statusOf pid with
        | none =>
          left
          dsimp only
          rw [update_progress_completedOf, appendCompleted_statusOf_none s pid t.id hst]
        | some st =>
          right
          refine ⟨t, ?_, ?_⟩
          · unfold planTasks
            rw [hp]
            exact hf
          · dsimp only
            rw [update_progress_completedOf, completedOf_appendCompleted s pid t.id st hst]
    · rw [if_neg hok]
      left
      dsimp only
      rw [completedOf_appendError]

theorem setup_plans (env : ExecEnv) (s : PMState) (pid : String) :
    (setup_project_structure env s pid).1.project_plans = s.project_plans :=
  (setup_mut env s pid).plans_eq

theorem GatedFrom.refl (s : PMState) (pid : String) : GatedFrom s pid s :=
  ⟨GatedExt.refl _, rfl⟩

theorem GatedFrom.comp {s r r' : PMState} {pid : String}
    (h1 : GatedFrom s pid r) (h2 : GatedFrom r pid r') : GatedFrom s pid r' := by
  obtain ⟨g1, p1⟩ := h1
  obtain ⟨g2, p2⟩ := h2
  have hpt : planTasks r pid = planTasks s pid := by
    unfold planTasks
    rw [planOf_plans_congr s r pid p1]
  have hct : completedOf r pid = completedOf r pid := rfl
  rw [hpt] at g2
  exact ⟨gated_chain g1 g2, p2.trans p1⟩

theorem GatedFrom.update_status (s : PMState) (pid a b : String) :
    GatedFrom s pid (update_status s pid a b) := by
  refine ⟨?_, rfl⟩
  rw [completedOf_update_status]
  exact GatedExt.refl _

theorem GatedFrom.append_error (s : PMState) (pid m : String) :
    GatedFrom s pid (appendError s pid m) := by
  refine ⟨?_, rfl⟩
  rw [completedOf_appendError]
  exact GatedExt.refl _

theorem GatedFrom.set_completion (s : PMState) (pid : String) (n : Nat) :
    GatedFrom s pid (modifyProject s pid (fun st => { st with actual_completion := some n })) := by
  refine ⟨?_, rfl⟩
  rw [completedOf_set_completion]
  exact GatedExt.refl _

theorem GatedFrom.execute_fail (s : PMState) (pid m : String) :
    GatedFrom s pid (execute_fail s pid m).1 :=
  GatedFrom.comp (GatedFrom.update_status s pid "failed" ("Project execution failed: " ++ m))
    (GatedFrom.append_error _ pid ("Project execution failed: " ++ m))

theorem implement_project_gated (env : ExecEnv) (s : PMState) (pid : String) :
    GatedFrom s pid (implement_project env s pid).1 := by
  unfold implement_project
  cases hp : s.planOf pid with
  | none => exact GatedFrom.append_error s pid "Implementation failed: missing plan"
  | some p =>
    dsimp only
    refine ⟨?_, (implement_loop_mut env pid _ s).plans_eq⟩
    refine implement_loop_gated env pid (planTasks s pid) _ s ?_
    intro t ht
    unfold planTasks
    rw [hp]
    exact List.mem_of_mem_filter ht

theorem test_and_review_project_gated (env : ExecEnv) (s : PMState) (pid : String) :
    GatedFrom s pid (test_and_review_project env s pid).1 := by
  unfold test_and_review_project
  cases hp : s.planOf pid with
  | none => exact GatedFrom.append_error s pid "Testing failed: missing plan"
  | some p =>
    dsimp only
    refine ⟨?_, (review_loop_mut env pid _ s).plans_eq⟩
    refine review_loop_gated env pid (planTasks s pid) _ s ?_
    intro t ht
    unfold planTasks
    rw [hp]
    exact List.mem_of_mem_filter ht

theorem generate_documentation_gated (env : ExecEnv) (s : PMState) (pid : String) :
    GatedFrom s pid (generate_documentation env s pid).1 := by
  unfold generate_documentation
  cases hp : s.planOf pid with
  | none => exact GatedFrom.append_error s pid "Documentation failed: missing plan"
  | some p =>
    dsimp only
    refine ⟨?_, (doc_loop_mut env pid _ s).plans_eq⟩
    refine doc_loop_gated env pid (planTasks s pid) _ s ?_
    intro t ht
    unfold planTasks
    rw [hp]
    exact List.mem_of_mem_filter ht

theorem execute_project_gated_from_setup (env : ExecEnv) (s : PMState) (pid : String)
    (now : Nat) :
    GatedFrom (setup_project_structure env
        (update_status s pid "in_progress" "Setting up project structure") pid).1 pid
      (execute_project env s pid now).1
    ∨ (execute_project env s pid now).1 = s := by
  unfold execute_project
  cases hs : s.statusOf pid with
  | none =>
    right
    rfl
  | some st0 =>
    left
    by_cases h1 : (setup_project_structure env
        (update_status s pid "in_progress" "Setting up project structure") pid).2 = true
    · rw [if_pos h1]
      have g2 : GatedFrom (setup_project_structure env
          (update_status s pid "in_progress" "Setting up project structure") pid).1 pid
          (implement_project env
            (update_status (setup_project_structure env
              (update_status s pid "in_progress" "Setting up project structure") pid).1
              pid "in_progress" "Implementing core functionality") pid).1 :=
        GatedFrom.comp (GatedFrom.update_status _ pid _ _) (implement_project_gated env _ pid)
      by_cases h2 : (implement_project env
          (update_status (setup_project_structure env
            (update_status s pid "in_progress" "Setting up project structure") pid).1
            pid "in_progress" "Implementing core functionality") pid).2 = true
      · rw [if_pos h2]
        have g3 := GatedFrom.comp g2 (GatedFrom.comp (GatedFrom.update_status _ pid
          "testing" "Running tests and quality checks")
          (test_and_review_project_gated env _ pid))
        by_cases h3 : (test_and_review_project env
            (update_status (implement_project env
              (update_status (setup_project_structure env
                (update_status s pid "in_progress" "Setting up project structure") pid).1
                pid "in_progress" "Implementing core functionality") pid).1
              pid "testing" "Running tests and quality checks") pid).2 = true
        · rw [if_pos h3]
          have g4 := GatedFrom.comp g3 (GatedFrom.comp (GatedFrom.update_status _ pid
            "documentation" "Generating documentation")
            (generate_documentation_gated env _ pid))
          by_cases h4 : (generate_documentation env
              (update_status (test_and_review_project env
                (update_status (implement_project env
                  (update_status (setup_project_structure env
                    (update_status s pid "in_progress" "Setting up project structure") pid).1
                    pid "in_progress" "Implementing core functionality") pid).1
                  pid "testing" "Running tests and quality checks") pid).1
                pid "documentation" "Generating documentation") pid).2 = true
          · rw [if_pos h4]
            exact GatedFrom.comp g4 (GatedFrom.comp (GatedFrom.update_status _ pid
              "completed" "Project completed successfully")
              (GatedFrom.set_completion _ pid now))
          · rw [if_neg h4]
            exact GatedFrom.comp g4 (GatedFrom.execute_fail _ pid
              "Failed to generate documentation")
        · rw [if_neg h3]
          exact GatedFrom.comp g3 (GatedFrom.execute_fail _ pid
            "Failed testing and review phase")
      · rw [if_neg h2]
        exact GatedFrom.comp g2 (GatedFrom.execute_fail _ pid "Failed to implement project")
    · rw [if_neg h1]
      exact GatedFrom.execute_fail _ pid "Failed to setup project structure"

/-! ## Progress-percentage consistency -/

theorem pc_frame (s s' : PMState) (pid2 : String)
    (hst : s'.statusOf pid2 = s.statusOf pid2) (hpl : s'.planOf pid2 = s.planOf pid2)
    (h : progressConsistent s pid2) : progressConsistent s' pid2 := by
  intro st p h1 h2
  rw [hst] at h1
  rw [hpl] at h2
  exact h st p h1 h2

theorem pc_modify (s : PMState) (pid : String) (f : ProjectStatus → ProjectStatus)
    (hf1 : ∀ st, (f st).progress_percentage = st.progress_percentage)
    (hf2 : ∀ st, (f st).completed_tasks = st.completed_tasks)
    (pid2 : String) (h : progressConsistent s pid2) :
    progressConsistent (modifyProject s pid f) pid2 := by
  intro st p hst hp
  have hp' : s.planOf pid2 = some p := hp
  by_cases he : pid2 = pid
  · subst he
    rw [statusOf_modify_self] at hst
    cases hs0 : s.statusOf pid2 with
    | none =>
      rw [hs0] at hst
      cases hst
    | some st0 =>
      rw [hs0] at hst
      have hst' : f st0 = st := Option.some.inj hst
      have hc := h st0 p hs0 hp'
      constructor
      · intro h0
        rw [← hst', hf1]
        exact hc.1 h0
      · intro h0
        rw [← hst', hf1, hf2]
        exact hc.2 h0
  · rw [statusOf_modify_ne _ _ _ _ he] at hst
    exact h st p hst hp'

theorem pc_update_status (s : PMState) (pid a b : String)
    (h : ∀ pid2, progressConsistent s pid2) (pid2 : String) :
    progressConsistent (update_status s pid a b) pid2 := by
  apply pc_modify
  · intro st
    rfl
  · intro st
    rfl
  · exact h pid2

theorem pc_appendError (s : PMState) (pid m : String)
    (h : ∀ pid2, progressConsistent s pid2) (pid2 : String) :
    progressConsistent (appendError s pid m) pid2 := by
  apply pc_modify
  · intro st
    rfl
  · intro st
    rfl
  · exact h pid2

theorem pc_set_completion (s : PMState) (pid : String) (n : Nat)
    (h : ∀ pid2, progressConsistent s pid2) (pid2 : String) :
    progressConsistent
      (modifyProject s pid (fun st => { st with actual_completion := some n })) pid2 := by
  apply pc_modify
  · intro st
    rfl
  · intro st
    rfl
  · exact h pid2

theorem pc_update_progress_self (s1 : PMState) (pid : String)
    (h0 : ∀ st p, s1.statusOf pid = some st → s1.planOf pid = some p →
        p.tasks.length = 0 → st.progress_percentage = 0) :
    progressConsistent (update_progress s1 pid) pid := by
  intro st p hst hp
  cases hs : s1.statusOf pid with
  | none =>
    have he : update_progress s1 pid = s1 := by
      unfold update_progress
      rw [hs]
    rw [he, hs] at hst
    cases hst
  | some st1 =>
    cases hpl : s1.planOf pid with
    | none =>
      have he : update_progress s1 pid = s1 := by
        unfold update_progress
        rw [hs, hpl]
      rw [he, hpl] at hp
      cases hp
    | some p1 =>
      have he : update_progress s1 pid =
          if 0 < p1.tasks.length then
            modifyProject s1 pid (fun st2 =>
              { st2 with progress_percentage :=
                  ((st2.completed_tasks.length : ℚ) / (p1.tasks.length : ℚ)) * 100 })
          else s1 := by
        unfold update_progress
        rw [hs, hpl]
      have hpp : p = p1 := by
        have hp2 : (update_progress s1 pid).planOf pid = s1.planOf pid :=
          planOf_plans_congr _ _ _ (update_progress_plans s1 pid)
        rw [hp2, hpl] at hp
        exact (Option.some.inj hp).symm
      subst hpp
      by_cases hlen : 0 < p.tasks.length
      · rw [he, if_pos hlen, statusOf_modify_self, hs] at hst
        have hst' : { st1 with progress_percentage :=
            ((st1.completed_tasks.length : ℚ) / (p.tasks.length : ℚ)) * 100 } = st :=
          Option.some.inj hst
        constructor
        · intro h00
          exact absurd h00 (Nat.pos_iff_ne_zero.mp hlen)
        · intro _
          rw [← hst']
          show ((st1.completed_tasks.length : ℚ) / (p.tasks.length : ℚ)) * 100
            = 100 * (st1.completed_tasks.length : ℚ) / (p.tasks.length : ℚ)
          ring
      · rw [he, if_neg hlen, hs] at hst
        have hst' : st1 = st := Option.some.inj hst
        subst hst'
        constructor
        · intro h00
          exact h0 st1 p hs hpl h00
        · intro hpos
          exact (hlen hpos).elim

theorem pc_update_progress (s : PMState) (pid : String)
    (h : ∀ pid2, progressConsistent s pid2) (pid2 : String) :
    progressConsistent (update_progress s pid) pid2 := by
  by_cases he : pid2 = pid
  · subst he
    apply pc_update_progress_self
    intro st p h1 h2 h3
    exact (h pid2 st p h1 h2).1 h3
  · exact pc_frame s _ pid2 (update_progress_statusOf_ne s pid pid2 he)
      (planOf_plans_congr _ _ _ (update_progress_plans s pid)) (h pid2)

theorem pc_append_progress (s : PMState) (pid : String) (i : Int)
    (h : ∀ pid2, progressConsistent s pid2) (pid2 : String) :
    progressConsistent (update_progress (appendCompleted s pid i) pid) pid2 := by
  by_cases he : pid2 = pid
  · subst he
    apply pc_update_progress_self
    intro st p h1 h2 h3
    cases hs : s.statusOf pid2 with
    | none =>
      rw [appendCompleted_statusOf_none s pid2 i hs, hs] at h1
      cases h1
    | some st0 =>
      rw [appendCompleted, statusOf_modify_self, hs] at h1
      have h1' : { st0 with completed_tasks := st0.completed_tasks ++ [i] } = st :=
        Option.some.inj h1
      have h2' : s.planOf pid2 = some p := h2
      rw [← h1']
      show st0.progress_percentage = 0
      exact (h pid2 st0 p hs h2').1 h3
  · refine pc_frame s _ pid2 ?_ ?_ (h pid2)
    · rw [update_progress_statusOf_ne _ _ _ he]
      exact statusOf_modify_ne _ _ _ _ he
    · exact planOf_plans_congr _ _ _ (update_progress_plans _ _)

theorem implement_loop_pc (env : ExecEnv) (pid : String) :
    ∀ (ts : List Task) (s : PMState), (∀ pid2, progressConsistent s pid2) →
      ∀ pid2, progressConsistent (implement_loop env pid ts s).1 pid2
  | [], _, h => h
  | t :: rest, s, h => by
    rw [implement_loop]
    by_cases hc : can_execute_task t (completedOf s pid) = true
    · rw [if_pos hc]
      by_cases hw : env.writeOk t.id = true
      · rw [if_pos hw]
        exact implement_loop_pc env pid rest _
          (fun pid2 => pc_append_progress _ pid t.id
            (fun pid3 => pc_update_status s pid _ _ h pid3) pid2)
      · rw [if_neg hw]
        intro pid2
        exact pc_appendError _ pid _ (fun pid3 => pc_update_status s pid _ _ h pid3) pid2
    · rw [if_neg hc]
      exact implement_loop_pc env pid rest s h

theorem review_loop_pc (env : ExecEnv) (pid : String) :
    ∀ (ts : List Task) (s : PMState), (∀ pid2, progressConsistent s pid2) →
      ∀ pid2, progressConsistent (review_loop env pid ts s).1 pid2
  | [], _, h => h
  | t :: rest, s, h => by
    rw [review_loop]
    by_cases hc : can_execute_task t (completedOf s pid) = true
    · rw [if_pos hc]
      by_cases ha : env.reviewApproved t.id = true
      · rw [if_pos ha]
        exact review_loop_pc env pid rest _
          (fun pid2 => pc_append_progress _ pid t.id
            (fun pid3 => pc_update_status s pid _ _ h pid3) pid2)
      · rw [if_neg ha]
        by_cases hx : env.fixOk t.id = true
        · rw [if_pos hx]
          exact review_loop_pc env pid rest _
            (fun pid2 => pc_append_progress _ pid t.id
              (fun pid3 => pc_update_status s pid _ _ h pid3) pid2)
        · rw [if_neg hx]
          intro pid2
          exact pc_appendError _ pid _ (fun pid3 => pc_update_status s pid _ _ h pid3) pid2
    · rw [if_neg hc]
      exact review_loop_pc env pid rest s h

theorem doc_loop_pc (env : ExecEnv) (pid : String) :
    ∀ (ts : List Task) (s : PMState), (∀ pid2, progressConsistent s pid2) →
      ∀ pid2, progressConsistent (doc_loop env pid ts s).1 pid2
  | [], _, h => h
  | t :: rest, s, h => by
    rw [doc_loop]
    by_cases hc : can_execute_task t (completedOf s pid) = true
    · rw [if_pos hc]
      by_cases hd : env.docOk t.id = true
      · rw [if_pos hd]
        exact doc_loop_pc env pid rest _
          (fun pid2 => pc_append_progress _ pid t.id
            (fun pid3 => pc_update_status s pid _ _ h pid3) pid2)
      · rw [if_neg hd]
        intro pid2
        exact pc_appendError _ pid _ (fun pid3 => pc_update_status s pid _ _ h pid3) pid2
    · rw [if_neg hc]
      exact doc_loop_pc env pid rest s h

theorem setup_pc (env : ExecEnv) (s : PMState) (pid : String)
    (h : ∀ pid2, progressConsistent s pid2) (pid2 : String) :
    progressConsistent (setup_project_structure env s pid).1 pid2 := by
  unfold setup_project_structure
  cases hp : s.planOf pid with
  | none => exact pc_appendError s pid _ h pid2
  | some p =>
    dsimp only
    by_cases hok : env.setupOk = true
    · rw [if_pos hok]
      cases hf : p.tasks.find? (fun t => lowerContains t.title "setup") with
      | none => exact pc_update_progress s pid h pid2
      | some t => exact pc_append_progress s pid t.id h pid2
    · rw [if_neg hok]
      exact pc_appendError s pid _ h pid2

theorem implement_project_pc (env : ExecEnv) (s : PMState) (pid : String)
    (h : ∀ pid2, progressConsistent s pid2) (pid2 : String) :
    progressConsistent (implement_project env s pid).1 pid2 := by
  unfold implement_project
  cases hp : s.planOf pid with
  | none => exact pc_appendError s pid _ h pid2
  | some p => exact implement_loop_pc env pid _ s h pid2

theorem test_and_review_project_pc (env : ExecEnv) (s : PMState) (pid : String)
    (h : ∀ pid2, progressConsistent s pid2) (pid2 : String) :
    progressConsistent (test_and_review_project env s pid).1 pid2 := by
  unfold test_and_review_project
  cases hp : s.planOf pid with
  | none => exact pc_appendError s pid _ h pid2
  | some p => exact review_loop_pc env pid _ s h pid2

theorem generate_documentation_pc (env : ExecEnv) (s : PMState) (pid : String)
    (h : ∀ pid2, progressConsistent s pid2) (pid2 : String) :
    progressConsistent (generate_documentation env s pid).1 pid2 := by
  unfold generate_documentation
  cases hp : s.planOf pid with
  | none => exact pc_appendError s pid _ h pid2
  | some p => exact doc_loop_pc env pid _ s h pid2

theorem execute_fail_pc (s : PMState) (pid m : String)
    (h : ∀ pid2, progressConsistent s pid2) (pid2 : String) :
    progressConsistent (execute_fail s pid m).1 pid2 :=
  pc_appendError _ pid _ (fun pid3 => pc_update_status s pid _ _ h pid3) pid2

theorem execute_project_pc (env : ExecEnv) (s : PMState) (pid : String) (now : Nat)
    (h : ∀ pid2, progressConsistent s pid2) (pid2 : String) :
    progressConsistent (execute_project env s pid now).1 pid2 := by
  unfold execute_project
  cases hs : s.statusOf pid with
  | none => exact h pid2
  | some st0 =>
    have hc1 : ∀ pid3, progressConsistent (setup_project_structure env
        (update_status s pid "in_progress" "Setting up project structure") pid).1 pid3 :=
      fun pid3 => setup_pc env _ pid (fun pid4 => pc_update_status s pid _ _ h pid4) pid3
    by_cases h1 : (setup_project_structure env
        (update_status s pid "in_progress" "Setting up project structure") pid).2 = true
    · rw [if_pos h1]
      have hc2 : ∀ pid3, progressConsistent (implement_project env
          (update_status (setup_project_structure env
            (update_status s pid "in_progress" "Setting up project structure") pid).1
            pid "in_progress" "Implementing core functionality") pid).1 pid3 :=
        fun pid3 => implement_project_pc env _ pid
          (fun pid4 => pc_update_status _ pid _ _ hc1 pid4) pid3
      by_cases h2 : (implement_project env
          (update_status (setup_project_structure env
            (update_status s pid "in_progress" "Setting up project structure") pid).1
            pid "in_progress" "Implementing core functionality") pid).2 = true
      · rw [if_pos h2]
        have hc3 : ∀ pid3, progressConsistent (test_and_review_project env
            (update_status (implement_project env
              (update_status (setup_project_structure env
                (update_status s pid "in_progress" "Setting up project structure") pid).1
                pid "in_progress" "Implementing core functionality") pid).1
              pid "testing" "Running tests and quality checks") pid).1 pid3 :=
          fun pid3 => test_and_review_project_pc env _ pid
            (fun pid4 => pc_update_status _ pid _ _ hc2 pid4) pid3
        by_cases h3 : (test_and_review_project env
            (update_status (implement_project env
              (update_status (setup_project_structure env
                (update_status s pid "in_progress" "Setting up project structure") pid).1
                pid "in_progress" "Implementing core functionality") pid).1
              pid "testing" "Running tests and quality checks") pid).2 = true
        · rw [if_pos h3]
          have hc4 : ∀ pid3, progressConsistent (generate_documentation env
              (update_status (test_and_review_project env
                (update_status (implement_project env
                  (update_status (setup_project_structure env
                    (update_status s pid "in_progress" "Setting up project structure") pid).1
                    pid "in_progress" "Implementing core functionality") pid).1
                  pid "testing" "Running tests and quality checks") pid).1
                pid "documentation" "Generating documentation") pid).1 pid3 :=
            fun pid3 => generate_documentation_pc env _ pid
              (fun pid4 => pc_update_status _ pid _ _ hc3 pid4) pid3
          by_cases h4 : (generate_documentation env
              (update_status (test_and_review_project env
                (update_status (implement_project env
                  (update_status (setup_project_structure env
                    (update_status s pid "in_progress" "Setting up project structure") pid).1
                    pid "in_progress" "Implementing core functionality") pid).1
                  pid "testing" "Running tests and quality checks") pid).1
                pid "documentation" "Generating documentation") pid).2 = true
          · rw [if_pos h4]
            exact pc_set_completion _ pid now
              (fun pid4 => pc_update_status _ pid _ _ hc4 pid4) pid2
          · rw [if_neg h4]
            exact execute_fail_pc _ pid _ hc4 pid2
        · rw [if_neg h3]
          exact execute_fail_pc _ pid _ hc3 pid2
      · rw [if_neg h2]
        exact execute_fail_pc _ pid _ hc2 pid2
    · rw [if_neg h1]
      exact execute_fail_pc _ pid _ hc1 pid2

/-! ## Lookup behaviour of the remaining operations -/

theorem package_project_state (zipOk : Bool) (s : PMState) (arts : List String)
    (pid : String) (out : Option String) : (package_project zipOk s arts pid out).1 = s := by
  unfold package_project
  split
  · rfl
  · split
    · rfl
    · split
      · rfl
      · rfl

theorem create_project_statusOf_self (s : PMState) (pid title body : String)
    (ap : Option Analysis) (bp : Option (List TaskData)) (arch : String) (now : Nat)
    (gh : List String) :
    (create_project s pid title body ap bp arch now gh).statusOf pid
      = some (created_status pid title (plan title body ap bp arch) now gh) := by
  unfold create_project PMState.statusOf
  exact pyGet_pySet_self _ _ _

theorem create_project_statusOf_ne (s : PMState) (pid title body : String)
    (ap : Option Analysis) (bp : Option (List TaskData)) (arch : String) (now : Nat)
    (gh : List String) (pid2 : String) (hne : pid2 ≠ pid) :
    (create_project s pid title body ap bp arch now gh).statusOf pid2
      = s.statusOf pid2 := by
  unfold create_project PMState.statusOf
  exact pyGet_pySet_ne _ _ _ _ hne

theorem create_project_planOf_self (s : PMState) (pid title body : String)
    (ap : Option Analysis) (bp : Option (List TaskData)) (arch : String) (now : Nat)
    (gh : List String) :
    (create_project s pid title body ap bp arch now gh).planOf pid
      = some (plan title body ap bp arch) := by
  unfold create_project PMState.planOf
  exact pyGet_pySet_self _ _ _

theorem create_project_planOf_ne (s : PMState) (pid title body : String)
    (ap : Option Analysis) (bp : Option (List TaskData)) (arch : String) (now : Nat)
    (gh : List String) (pid2 : String) (hne : pid2 ≠ pid) :
    (create_project s pid title body ap bp arch now gh).planOf pid2 = s.planOf pid2 := by
  unfold create_project PMState.planOf
  exact pyGet_pySet_ne _ _ _ _ hne

theorem cleanup_project_statusOf_ne (s : PMState) (pid pid2 : String) (hne : pid2 ≠ pid) :
    (cleanup_project s pid).1.statusOf pid2 = s.statusOf pid2 := by
  unfold cleanup_project PMState.statusOf
  exact pyGet_pyDel_ne _ _ _ hne

theorem cleanup_project_planOf_ne (s : PMState) (pid pid2 : String) (hne : pid2 ≠ pid) :
    (cleanup_project s pid).1.planOf pid2 = s.planOf pid2 := by
  unfold cleanup_project PMState.planOf
  exact pyGet_pyDel_ne _ _ _ hne

theorem create_pc (s : PMState) (pid title body : String) (ap : Option Analysis)
    (bp : Option (List TaskData)) (arch : String) (now : Nat) (gh : List String)
    (h : ∀ pid2, progressConsistent s pid2) (pid2 : String) :
    progressConsistent (create_project s pid title body ap bp arch now gh) pid2 := by
  by_cases he : pid2 = pid
  · subst he
    intro st p hst hp
    rw [create_project_statusOf_self] at hst
    rw [create_project_planOf_self] at hp
    have hst' := Option.some.inj hst
    have hp' := Option.some.inj hp
    constructor
    · intro _
      rw [← hst']
      rfl
    · intro _
      rw [← hst', ← hp']
      show (0 : ℚ)
        = 100 * (([] : List Int).length : ℚ) / ((plan title body ap bp arch).tasks.length : ℚ)
      simp
  · intro st p hst hp
    rw [create_project_statusOf_ne _ _ _ _ _ _ _ _ _ _ he] at hst
    rw [create_project_planOf_ne _ _ _ _ _ _ _ _ _ _ he] at hp
    exact h pid2 st p hst hp

theorem cleanup_pc (s : PMState) (pid : String) (hwf : wfKeys s)
    (h : ∀ pid2, progressConsistent s pid2) (pid2 : String) :
    progressConsistent (cleanup_project s pid).1 pid2 := by
  by_cases he : pid2 = pid
  · subst he
    intro st p hst hp
    have hnone : (cleanup_project s pid2).1.statusOf pid2 = none := by
      unfold cleanup_project PMState.statusOf
      exact pyGet_pyDel_self_nodup _ _ hwf.1
    rw [hnone] at hst
    cases hst
  · intro st p hst hp
    rw [cleanup_project_statusOf_ne _ _ _ he] at hst
    rw [cleanup_project_planOf_ne _ _ _ he] at hp
    exact h pid2 st p hst hp

/-! ## Key well-formedness -/

theorem wf_modify (s : PMState) (pid : String) (f : ProjectStatus → ProjectStatus)
    (h : wfKeys s) : wfKeys (modifyProject s pid f) := by
  refine ⟨?_, h.2⟩
  show ((pyModify s.active_projects pid f).map Prod.fst).Nodup
  rw [keys_pyModify]
  exact h.1

theorem wf_update_progress (s : PMState) (pid : String) (h : wfKeys s) :
    wfKeys (update_progress s pid) := by
  unfold update_progress
  rcases s.statusOf pid with _ | st
  · exact h
  · rcases s.planOf pid with _ | p
    · exact h
    · dsimp only
      split
      · exact wf_modify _ _ _ h
      · exact h

theorem Mut.wf {pid : String} {s s' : PMState} (hm : Mut pid s s') (h : wfKeys s) :
    wfKeys s' := by
  induction hm with
  | refl => exact h
  | upd_status sm a b hm2 ih => exact wf_modify _ _ _ ih
  | add_completed sm i hm2 ih => exact wf_modify _ _ _ ih
  | add_error sm m hm2 ih => exact wf_modify _ _ _ ih
  | progress sm hm2 ih => exact wf_update_progress _ _ ih
  | complete_time sm n hm2 ih => exact wf_modify _ _ _ ih

theorem wf_create (s : PMState) (pid title body : String) (ap : Option Analysis)
    (bp : Option (List TaskData)) (arch : String) (now : Nat) (gh : List String)
    (h : wfKeys s) : wfKeys (create_project s pid title body ap bp arch now gh) := by
  constructor
  · show ((pySet s.active_projects pid _).map Prod.fst).Nodup
    exact keys_pySet_nodup _ _ _ h.1
  · show ((pySet s.project_plans pid _).map Prod.fst).Nodup
    exact keys_pySet_nodup _ _ _ h.2

theorem wf_cleanup (s : PMState) (pid : String) (h : wfKeys s) :
    wfKeys (cleanup_project s pid).1 := by
  constructor
  · show ((pyDel s.active_projects pid).map Prod.fst).Nodup
    exact h.1.sublist ((pyDel_sublist _ _).map Prod.fst)
  · show ((pyDel s.project_plans pid).map Prod.fst).Nodup
    exact h.2.sublist ((pyDel_sublist _ _).map Prod.fst)

/-! ## The run-level invariant for progress consistency -/

theorem foldl_inv (P : PMState → Prop) (hstep : ∀ s op, P s → P (step s op)) :
    ∀ (ops : List Op) (s : PMState), P s → P (ops.foldl step s)
  | [], _, h => h
  | op :: rest, s, h => foldl_inv P hstep rest (step s op) (hstep s op h)

theorem step_pc (s : PMState) (op : Op)
    (h : wfKeys s ∧ ∀ pid2, progressConsistent s pid2) :
    wfKeys (step s op) ∧ ∀ pid2, progressConsistent (step s op) pid2 := by
  cases op with
  | create pid title body ap bp arch now gh =>
    exact ⟨wf_create s pid title body ap bp arch now gh h.1,
      fun pid2 => create_pc s pid title body ap bp arch now gh h.2 pid2⟩
  | execute pid env now =>
    exact ⟨(execute_project_mut env s pid now).wf h.1,
      fun pid2 => execute_project_pc env s pid now h.2 pid2⟩
  | package pid out zipOk =>
    have he : step s (Op.package pid out zipOk) = s := package_project_state zipOk s [] pid out
    rw [he]
    exact h
  | cleanup pid =>
    exact ⟨wf_cleanup s pid h.1, fun pid2 => cleanup_pc s pid h.1 h.2 pid2⟩
  | getStatus pid => exact h
  | listProjects => exact h

theorem run_pc (ops : List Op) :
    wfKeys (run ops) ∧ ∀ pid2, progressConsistent (run ops) pid2 := by
  refine foldl_inv _ step_pc ops initState ⟨⟨?_, ?_⟩, ?_⟩
  · simp [initState]
  · simp [initState]
  · intro pid2 st p hst hp
    cases hst

/-! ## The failed-task registry is never written -/

theorem failed_forall_modify (s : PMState) (pid : String) (f : ProjectStatus → ProjectStatus)
    (hf : ∀ st, (f st).failed_tasks = st.failed_tasks)
    (h : ∀ kv ∈ s.active_projects, kv.2.failed_tasks = ([] : List Int)) :
    ∀ kv ∈ (modifyProject s pid f).active_projects, kv.2.failed_tasks = ([] : List Int) := by
  intro kv hkv
  refine pyModify_forall (fun st => st.failed_tasks = []) s.active_projects pid f h ?_ kv hkv
  intro v hv
  rw [hf]
  exact hv

theorem failed_forall_update_progress (s : PMState) (pid : String)
    (h : ∀ kv ∈ s.active_projects, kv.2.failed_tasks = ([] : List Int)) :
    ∀ kv ∈ (update_progress s pid).active_projects, kv.2.failed_tasks = ([] : List Int) := by
  unfold update_progress
  rcases s.statusOf pid with _ | st
  · exact h
  · rcases s.planOf pid with _ | p
    · exact h
    · dsimp only
      split
      · refine failed_forall_modify s pid _ ?_ h
        intro st2
        rfl
      · exact h

theorem Mut.failed_forall {pid : String} {s s' : PMState} (hm : Mut pid s s')
    (h : ∀ kv ∈ s.active_projects, kv.2.failed_tasks = ([] : List Int)) :
    ∀ kv ∈ s'.active_projects, kv.2.failed_tasks = ([] : List Int) := by
  induction hm with
  | refl => exact h
  | upd_status sm a b hm2 ih =>
    refine failed_forall_modify sm pid _ ?_ ih
    intro st2
    rfl
  | add_completed sm i hm2 ih =>
    refine failed_forall_modify sm pid _ ?_ ih
    intro st2
    rfl
  | add_error sm m hm2 ih =>
    refine failed_forall_modify sm pid _ ?_ ih
    intro st2
    rfl
  | progress sm hm2 ih => exact failed_forall_update_progress sm pid ih
  | complete_time sm n hm2 ih =>
    refine failed_forall_modify sm pid _ ?_ ih
    intro st2
    rfl

theorem failed_forall_create (s : PMState) (pid title body : String) (ap : Option Analysis)
    (bp : Option (List TaskData)) (arch : String) (now : Nat) (gh : List String)
    (h : ∀ kv ∈ s.active_projects, kv.2.failed_tasks = ([] : List Int)) :
    ∀ kv ∈ (create_project s pid title body ap bp arch now gh).active_projects,
      kv.2.failed_tasks = ([] : List Int) := by
  intro kv hkv
  refine pySet_forall (fun st => st.failed_tasks = []) s.active_projects pid
    (created_status pid title (plan title body ap bp arch) now gh) h rfl kv ?_
  exact hkv

theorem failed_forall_cleanup (s : PMState) (pid : String)
    (h : ∀ kv ∈ s.active_projects, kv.2.failed_tasks = ([] : List Int)) :
    ∀ kv ∈ (cleanup_project s pid).1.active_projects,
      kv.2.failed_tasks = ([] : List Int) := by
  intro kv hkv
  exact h kv ((pyDel_sublist _ _).subset hkv)

theorem step_failed (s : PMState) (op : Op)
    (h : ∀ kv ∈ s.active_projects, kv.2.failed_tasks = ([] : List Int)) :
    ∀ kv ∈ (step s op).active_projects, kv.2.failed_tasks = ([] : List Int) := by
  cases op with
  | create pid title body ap bp arch now gh =>
    exact failed_forall_create s pid title body ap bp arch now gh h
  | execute pid env now => exact (execute_project_mut env s pid now).failed_forall h
  | package pid out zipOk =>
    have he : step s (Op.package pid out zipOk) = s := package_project_state zipOk s [] pid out
    rw [he]
    exact h
  | cleanup pid => exact failed_forall_cleanup s pid h
  | getStatus pid => exact h
  | listProjects => exact h

theorem run_failed (ops : List Op) :
    ∀ kv ∈ (run ops).active_projects, kv.2.failed_tasks = ([] : List Int) := by
  refine foldl_inv _ step_failed ops initState ?_
  intro kv hkv
  cases hkv

theorem pyGet_pySet_cond {α : Type} (l : List (String × α)) (k : String) (v : α)
    (k' : String) :
    pyGet (pySet l k v) k' = if k' = k then some v else pyGet l k' := by
  by_cases h : k' = k
  · rw [if_pos h, h]
    exact pyGet_pySet_self l k v
  · rw [if_neg h]
    exact pyGet_pySet_ne l k k' v h

/-! ## Verified claims -/

/-- C1 counterexample: a project with a setup-titled task 1 that depends on
task 2, and a coder task 2 that never completes, is created and executed;
the setup phase marks task 1 complete even though its dependency 2 is not
(and never becomes) completed, refuting the claim that every phase —
including setup — checks dependencies before adding a task to
`completed_tasks`. -/
theorem c1_setup_phase_skips_gating :
    completedOf (run c1ops) "q" = [1]
    ∧ (planTasks (run c1ops) "q").map Task.id = [1, 2]
    ∧ (planTasks (run c1ops) "q").map Task.dependencies = [[2], []]
    ∧ (2 : Int) ∉ completedOf (run c1ops) "q" := by
  refine ⟨?_, ?_, ?_, ?_⟩ <;> decide

/-- C1 amended: during `execute_project`, the implementation, testing and
documentation phases only append a task id after checking that all of its
dependencies are already in `completed_tasks` (a dependency-gated
extension); the setup phase is the exception — it may append the id of the
first setup-titled task without any dependency check. -/
theorem c1_dependency_gating (env : ExecEnv) (s : PMState) (pid : String) (now : Nat) :
    ∃ c1, (c1 = completedOf s pid
        ∨ ∃ t, (planTasks s pid).find? (fun t2 => lowerContains t2.title "setup") = some t
            ∧ c1 = completedOf s pid ++ [t.id])
      ∧ GatedExt (planTasks s pid) c1 (completedOf (execute_project env s pid now).1 pid) := by
  rcases execute_project_gated_from_setup env s pid now with hGF | heq
  · obtain ⟨g, hp⟩ := hGF
    have hpt : planTasks (setup_project_structure env
        (update_status s pid "in_progress" "Setting up project structure") pid).1 pid
        = planTasks s pid := by
      unfold planTasks
      rw [planOf_plans_congr _ _ pid (setup_plans env _ pid)]
      rfl
    rcases setup_completed env
        (update_status s pid "in_progress" "Setting up project structure") pid with
      hA | ⟨t, hfind, hA⟩
    · refine ⟨completedOf s pid, Or.inl rfl, ?_⟩
      rw [hpt] at g
      rw [hA, completedOf_update_status] at g
      exact g
    · refine ⟨completedOf s pid ++ [t.id], Or.inr ⟨t, hfind, rfl⟩, ?_⟩
      rw [completedOf_update_status] at hA
      rw [hpt] at g
      rw [hA] at g
      exact g
  · rw [heq]
    exact ⟨completedOf s pid, Or.inl rfl, GatedExt.refl _⟩

/-- C2 counterexample: a project is created from the fallback plan and
executed to `completed`; a second `execute_project` call on the same id,
with the setup phase failing, moves the status from the terminal
`completed` to `failed`, refuting the claim that no later operation ever
changes a terminal status. -/
theorem c2_terminal_status_mutates :
    status_of (run c2ops1) "p" = some "completed"
    ∧ status_of (run c2ops2) "p" = some "failed" :=
  ⟨by decide, by decide⟩

/-- C2 amended: once `completed` or `failed`, a status is left unchanged by
`package_project` (on any id), by status queries, and by `cleanup_project`,
`execute_project` or `create_project` addressed to a different project id;
only a further `execute_project` (or a `create_project` reusing the id)
mutates it, by restarting the pipeline. -/
theorem c2_terminal_status_stability (s : PMState) (arts : List String)
    (pidT pidO : String) (env : ExecEnv) (now now2 : Nat) (zipOk : Bool)
    (out : Option String) (title body arch : String) (ap : Option Analysis)
    (bp : Option (List TaskData)) (gh : List String) :
    (package_project zipOk s arts pidT out).1 = s
    ∧ (if pidT = pidO then True
       else status_of (cleanup_project s pidO).1 pidT = status_of s pidT)
    ∧ (if pidT = pidO then True
       else status_of (execute_project env s pidO now).1 pidT = status_of s pidT)
    ∧ (if pidT = pidO then True
       else status_of (create_project s pidO title body ap bp arch now2 gh) pidT
            = status_of s pidT) := by
  refine ⟨package_project_state zipOk s arts pidT out, ?_, ?_, ?_⟩
  · by_cases he : pidT = pidO
    · rw [if_pos he]
      trivial
    · rw [if_neg he]
      unfold status_of
      rw [cleanup_project_statusOf_ne s pidO pidT he]
  · by_cases he : pidT = pidO
    · rw [if_pos he]
      trivial
    · rw [if_neg he]
      unfold status_of
      rw [(execute_project_mut env s pidO now).statusOf_ne pidT he]
  · by_cases he : pidT = pidO
    · rw [if_pos he]
      trivial
    · rw [if_neg he]
      unfold status_of
      rw [create_project_statusOf_ne s pidO title body ap bp arch now2 gh pidT he]

/-- C3 counterexample: with both backend responses unparseable, the plan is
the canonical fallback (34 estimated hours), but `timeline_days` is
`max(1, int(34 / 8)) = 4`, not the claimed 5. -/
theorem c3_fallback_timeline_is_four :
    (plan "Demo" "Reqs" none none "").timeline_days = 4
    ∧ ¬ (plan "Demo" "Reqs" none none "").timeline_days = 5 := by
  have h4 : (plan "Demo" "Reqs" none none "").timeline_days = 4 := by
    show max 1 (pyTrunc (((create_task_breakdown none).map Task.estimated_hours).sum / 8)) = 4
    norm_num [create_task_breakdown, fallback_tasks, pyTrunc]
  refine ⟨h4, ?_⟩
  rw [h4]
  decide

/-- C3 amended: when both the analysis and the breakdown backend responses
are unparseable, `plan` (and hence `create_project`) still succeeds and
returns the canonical 4-task fallback plan (setup → implementation →
testing → documentation, assigned to planner/coder/reviewer/doc_agent,
estimates 4/16/8/6 hours) with `total_estimated_hours = 34` and
`timeline_days = 4`; `create_project` stores that plan and registers the
project in status `planning`. -/
theorem c3_fallback_plan (title body arch : String) (s : PMState) (pid : String)
    (now : Nat) (gh : List String) :
    (plan title body none none arch).tasks = fallback_tasks
    ∧ (plan title body none none arch).total_estimated_hours = 34
    ∧ (plan title body none none arch).timeline_days = 4
    ∧ (create_project s pid title body none none arch now gh).planOf pid
        = some (plan title body none none arch)
    ∧ status_of (create_project s pid title body none none arch now gh) pid
        = some "planning" := by
  refine ⟨rfl, ?_, ?_, create_project_planOf_self s pid title body none none arch now gh, ?_⟩
  · show ((create_task_breakdown none).map Task.estimated_hours).sum = 34
    norm_num [create_task_breakdown, fallback_tasks]
  · show max 1 (pyTrunc (((create_task_breakdown none).map Task.estimated_hours).sum / 8)) = 4
    norm_num [create_task_breakdown, fallback_tasks, pyTrunc]
  · unfold status_of
    rw [create_project_statusOf_self]
    rfl

/-- C4 counterexample: for the fallback plan (34 total hours) the code
computes `timeline_days = max(1, int(34 / 8)) = 4`, while the claimed
formula `max(1, ceil(34 / 8))` gives 5. -/
theorem c4_timeline_not_ceil :
    (plan "Demo" "Reqs" none none "").timeline_days
      ≠ specTimelineDays (plan "Demo" "Reqs" none none "").total_estimated_hours := by
  have h4 : (plan "Demo" "Reqs" none none "").timeline_days = 4 := by
    show max 1 (pyTrunc (((create_task_breakdown none).map Task.estimated_hours).sum / 8)) = 4
    norm_num [create_task_breakdown, fallback_tasks, pyTrunc]
  have ht : (plan "Demo" "Reqs" none none "").total_estimated_hours = 34 := by
    show ((create_task_breakdown none).map Task.estimated_hours).sum = 34
    norm_num [create_task_breakdown, fallback_tasks]
  have h5 : specTimelineDays (34 : ℚ) = 5 := by
    unfold specTimelineDays
    have hc : ⌈(34 : ℚ) / 8⌉ = 5 := by
      rw [Int.ceil_eq_iff]
      norm_num
    rw [hc]
    decide
  rw [h4, ht, h5]
  decide

/-- C4 amended: for every plan returned by `plan`, `total_estimated_hours`
equals the sum of `estimated_hours` over its tasks, and `timeline_days`
equals `max(1, int(total_estimated_hours / 8))` — `int` truncation, not
ceiling. -/
theorem c4_plan_arithmetic (title body : String) (ap : Option Analysis)
    (bp : Option (List TaskData)) (arch : String) :
    (plan title body ap bp arch).total_estimated_hours
      = ((plan title body ap bp arch).tasks.map Task.estimated_hours).sum
    ∧ (plan title body ap bp arch).timeline_days
      = max 1 (pyTrunc ((plan title body ap bp arch).total_estimated_hours / 8)) :=
  ⟨rfl, rfl⟩

/-- C5: after any sequence of public project-manager operations, every
tracked projects `progress_percentage` field equals
`100 * len(completed_tasks) / len(plan.tasks)`, and equals 0 when the plan
has no tasks — the pair is never observable in an inconsistent state. -/
theorem c5_progress_consistency (ops : List Op) (pid : String) :
    progressConsistent (run ops) pid :=
  (run_pc ops).2 pid

/-- Witness for C5: instantiated on a freshly created project (fallback
plan, 4 tasks, no completed tasks), whose stored percentage satisfies the
formula. -/
theorem c5_progress_consistency_witness :
    (created_status "w" "T" (plan "T" "R" none none "") 0 []).progress_percentage
      = 100 * ((created_status "w" "T" (plan "T" "R" none none "") 0
            []).completed_tasks.length : ℚ)
        / (((plan "T" "R" none none "").tasks.length : ℚ)) := by
  have h := c5_progress_consistency [Op.create "w" "T" "R" none none "" 0 []] "w"
  exact (h (created_status "w" "T" (plan "T" "R" none none "") 0 [])
    (plan "T" "R" none none "") rfl rfl).2 (by decide)

/-- C6: the source of `evaluate` tests
the returncode against the tuple of 0, None and True, and in Python `1 == True`, so
a return code of 1 — the ordinary failure code of ruff and pytest — is
treated as a success: on the report of the claimed scenario the code
returns `(True, [])` where the specified evaluation returns
`(False, ["ruff failed"])`. -/
theorem c6_returncode_one_ignored :
    evaluate [("ruff", some 1), ("pytest", some 0)] = (true, [])
    ∧ specEvaluate [("ruff", some 1), ("pytest", some 0)] = (false, ["ruff failed"]) := by
  refine ⟨?_, ?_⟩ <;> decide

/-- C7: `package_project` never mutates the tracked state; it succeeds
exactly when the project is tracked with status `completed` and the archive
write succeeds, and it creates an artifact exactly in that case — in
particular it fails, creates nothing and changes nothing whenever the
status differs from `completed` (including an unknown project id). -/
theorem c7_package_requires_completed (zipOk : Bool) (s : PMState) (arts : List String)
    (pid : String) (out : Option String) :
    (package_project zipOk s arts pid out).1 = s
    ∧ exceptOk (package_project zipOk s arts pid out).2.2
        = ((status_of s pid == some "completed") && zipOk)
    ∧ (package_project zipOk s arts pid out).2.1
        = (if exceptOk (package_project zipOk s arts pid out).2.2 = true
           then arts ++ [out.getD (pid ++ "_package.zip")] else arts) := by
  unfold package_project
  split
  next hs =>
    refine ⟨rfl, ?_, rfl⟩
    rw [status_of, hs]
    rfl
  next st hs =>
    split
    next hc =>
      refine ⟨rfl, ?_, rfl⟩
      rw [status_of, hs]
      show false = ((st.status == "completed") && zipOk)
      rw [beq_eq_false_iff_ne.mpr hc]
      rfl
    next hc =>
      have hcc : st.status = "completed" := not_not.mp hc
      dsimp only
      split
      next hz =>
        refine ⟨rfl, ?_, rfl⟩
        rw [status_of, hs]
        show true = ((st.status == "completed") && zipOk)
        rw [beq_iff_eq.mpr hcc, hz]
        rfl
      next hz =>
        have hz2 : zipOk = false := by
          cases zipOk with
          | false => rfl
          | true => exact absurd rfl hz
        refine ⟨rfl, ?_, rfl⟩
        rw [status_of, hs]
        show false = ((st.status == "completed") && zipOk)
        rw [hz2, Bool.and_false]

/-- C8: saving a project record and loading it back by the same id returns
the record minus the injected `_metadata` key. -/
theorem c8_save_load_roundtrip (store : List (String × List (String × Json)))
    (pid : String) (d : List (String × Json)) (ts : String) :
    load_project (save_project store pid d ts true).1 pid = some (pyDel d "_metadata") := by
  unfold save_project load_project
  rw [if_pos rfl]
  show (match pyGet (pySet store pid (pySet d "_metadata" (metaJson ts))) pid with
    | none => none
    | some data => some (pyDel data "_metadata")) = some (pyDel d "_metadata")
  rw [pyGet_pySet_self]
  show some (pyDel (pySet d "_metadata" (metaJson ts)) "_metadata") = some (pyDel d "_metadata")
  rw [pyDel_pySet_self]

/-- C9: no public operation ever appends a task id to `failed_tasks`:
after any operation sequence, the `failed_tasks` list of every tracked project is the
empty list. -/
theorem c9_no_failed_tasks (ops : List Op) (pid : String) (st : ProjectStatus)
    (h : (run ops).statusOf pid = some st) : st.failed_tasks = [] := by
  have hm : (pid, st) ∈ (run ops).active_projects := pyGet_mem _ _ _ h
  exact run_failed ops (pid, st) hm

/-- Witness for C9: the freshly created project of a concrete one-operation
run has an empty `failed_tasks`. -/
theorem c9_no_failed_tasks_witness :
    (created_status "w" "T" (plan "T" "R" none none "") 0 []).failed_tasks
      = ([] : List Int) :=
  c9_no_failed_tasks [Op.create "w" "T" "R" none none "" 0 []] "w"
    (created_status "w" "T" (plan "T" "R" none none "") 0 []) rfl

/-- C10: `save_project` mutates its `project_data` argument in place: after
the call the mutated dict holds the injected `_metadata` object (with
`saved_at` and `version`), and every other key is unchanged. -/
theorem c10_save_mutates_argument (store : List (String × List (String × Json)))
    (pid : String) (d : List (String × Json)) (ts : String) (diskOk : Bool) (k : String) :
    pyGet (save_project store pid d ts diskOk).2.1 k
      = if k = "_metadata" then some (metaJson ts) else pyGet d k := by
  unfold save_project
  split
  · exact pyGet_pySet_cond d "_metadata" (metaJson ts) k
  · exact pyGet_pySet_cond d "_metadata" (metaJson ts) k

end AICodeAgency
